import Mathlib

/-!
# sick_generic_laser: dialect selection and the connection-lifecycle loop

A shallow embedding of `driver/src/sick_generic_laser.cpp`: `mainGenericLaser` from
the construction of the parser (line 366) to its `return`, the signal handler
`rosSignalHandler`, and the configuration injector (`getTagVal`, `ends_with`,
`parseLaunchfileSetParameter`).

* Pointers are `Option`s holding the identity of the object pointed at; every
  `new` draws a fresh identity, `delete` is recorded in a trace of events and
  leaves the pointer as it is (the source nulls a pointer only where it says so).
* The calls into the session (`init`, `loopOnce`) and into the host runtime
  (`rosOk`, the read of `start_services`) are answered by an environment that
  gives one record of answers per loop iteration.
* `int result` is an `Int`; the three exit codes are named constants, and a
  result may be any integer, as in the source.
* The parameter registry and the device profile are collaborators whose code is
  not part of `sick_generic_laser.cpp`; they are modelled as far as
  `mainGenericLaser` uses them. The launch-file reader and the numeric
  conversions of the standard library are parameters of the injector.
* A `std::string` is a `String`, read as its list of characters.
-/

namespace SickGenericLaser

/-! ## Exit codes and run state -/

/-- Modelled from the spec: the exit code for success. The enumeration
`sick_scan::ExitCode` is declared in `sick_scan_common.h`, which is not among the
sources; the spec names three distinct codes (success, generic error, fatal error). -/
def ExitSuccess : Int := 0

/-- Modelled from the spec: the exit code for the generic (unspecified) error,
see `ExitSuccess`. -/
def ExitError : Int := 1

/-- Modelled from the spec: the exit code for the fatal error, see `ExitSuccess`. -/
def ExitFatal : Int := 2

/-- The enumeration `NodeRunState` of the source. -/
inductive NodeRunState where
  | scanner_init
  | scanner_run
  | scanner_finalize
  deriving DecidableEq, Repr

/-! ## Parameter registry -/

/-- Modelled from the spec: a typed value of the parameter registry (boolean,
integer, float, double, string). The registry lives in `sick_ros_wrapper.h`, which
is not among the sources. Float and double values are kept as the text they were
read from. -/
inductive ParamValue where
  | bool (b : Bool)
  | int (i : Int)
  | float (raw : String)
  | double (raw : String)
  | str (s : String)
  deriving DecidableEq, Repr

/-- Modelled from the spec: the parameter registry, a mapping from string key to a
typed value; `none` is an absent key. -/
abbrev Registry := String → Option ParamValue

/-- Modelled from the spec: `set(key, value)` of the registry. -/
def rosSetParam (reg : Registry) (key : String) (v : ParamValue) : Registry :=
  fun k => if k = key then some v else reg k

/-- Modelled from the spec: `declare(key, type, default)` of the registry: an absent
key receives the default, a present key keeps its value. -/
def rosDeclareParam (reg : Registry) (key : String) (dflt : ParamValue) : Registry :=
  match reg key with
  | some _ => reg
  | none => rosSetParam reg key dflt

/-- Modelled from the spec: `get(key) -> value | absent` of the registry, read into a
`bool` variable: the read succeeds when the key holds a boolean. -/
def rosGetParamBool (reg : Registry) (key : String) : Option Bool :=
  match reg key with
  | some (.bool b) => some b
  | _ => none

/-! ## Parser and dialect selection -/

/-- The part of the device profile (`parser->getCurrentParamPtr()`) that
`mainGenericLaser` reads and writes: the layer count and the binary-protocol flag
with its setter and getter. The class is declared in `sick_generic_parser.h`, which
is not among the sources. -/
structure ScannerBasicParam where
  numberOfLayers : Int
  useBinaryProtocol : Bool
  deriving DecidableEq, Repr

/-- Result of the protocol set-up of `mainGenericLaser` (lines 392-432). -/
structure ProtocolChoice where
  reg : Registry
  param : ScannerBasicParam
  emulSensor : Bool
  warned : Bool
  colaDialectId : Char

/-- Lines 392-432 of `mainGenericLaser`: read `emul_sensor` and
`use_binary_protocol`, override an ASCII request for a device with more than four
layers, store the choice in the device profile and derive the dialect byte from the
device profile. -/
def selectDialect (reg : Registry) (param : ScannerBasicParam) (emulSensor : Bool) :
    ProtocolChoice :=
  let use_binary_protocol := true
  let reg := rosDeclareParam reg "emul_sensor" (.bool emulSensor)
  let emulSensor := (rosGetParamBool reg "emul_sensor").getD emulSensor
  let reg := rosDeclareParam reg "use_binary_protocol" (.bool use_binary_protocol)
  let afterRead : Registry × ScannerBasicParam × Bool :=
    match rosGetParamBool reg "use_binary_protocol" with
    | some use_binary_protocol =>
      if use_binary_protocol = true then
        (reg, { param with useBinaryProtocol := use_binary_protocol }, false)
      else
        if param.numberOfLayers > 4 then
          let reg := rosSetParam reg "sopas_protocol_type" (.bool true)
          let use_binary_protocol := true
          (reg, { param with useBinaryProtocol := use_binary_protocol }, true)
        else
          (reg, { param with useBinaryProtocol := use_binary_protocol }, false)
    | none => (reg, param, false)
  let colaDialectId := if afterRead.2.1.useBinaryProtocol then 'B' else 'A'
  { reg := afterRead.1, param := afterRead.2.1, emulSensor := emulSensor,
    warned := afterRead.2.2, colaDialectId := colaDialectId }

/-! ## Objects, events and the state of `mainGenericLaser` -/

/-- The auxiliary services object: its identity, the session it was built against
and the protocol flag it was given. -/
structure Services where
  id : Nat
  session : Nat
  binary : Bool
  deriving DecidableEq, Repr

/-- What the lifecycle code does to its collaborators, in program order. -/
inductive Event where
  | newSession (id : Nat) (dialect : Char)
  | deleteSession (id : Nat)
  | setEmulSensor (id : Nat)
  | init (id : Nat) (result : Int)
  | newServices (id : Nat) (session : Nat)
  | deleteServices (id : Nat)
  | rosSpinOnce
  | loopOnce (id : Nat) (result : Int)
  | deleteParser
  | stopScanData (id : Nat)
  | rosShutdown
  deriving DecidableEq, Repr

/-- The globals `isInitialized`, `s_scanner`, `runState` and the locals of
`mainGenericLaser` that the main loop and the teardown use, with the counter of
object identities and the trace of events. -/
structure MainState where
  isInitialized : Bool
  s_scanner : Option Nat
  runState : NodeRunState
  parser : Option ScannerBasicParam
  start_services : Bool
  services : Option Services
  result : Int
  nextId : Nat
  trace : List Event
  deriving DecidableEq, Repr

/-- Values fixed before the main loop starts. -/
structure Config where
  useTCP : Bool
  emulSensor : Bool
  changeIP : Bool
  colaDialectId : Char
  deriving DecidableEq, Repr

/-- Answers of the collaborators during one loop iteration: `rosOk()`, the result of
`s_scanner->init`, the value read for `start_services` (absent: `none`) and the
result of `s_scanner->loopOnce`. -/
structure IterEnv where
  rosOk : Bool
  initResult : Int
  startServices : Option Bool
  loopResult : Int
  deriving DecidableEq, Repr

/-- How a piece of `mainGenericLaser` ends: control goes on after it, the function
returns a code, the process exits (`exit(-1)`), or a null pointer is dereferenced. -/
inductive Outcome where
  | proceed (s : MainState)
  | returned (code : Int) (s : MainState)
  | exited (code : Int) (s : MainState)
  | fault
  deriving DecidableEq, Repr

/-- The state when the main loop is reached: globals at their initial values,
parser constructed, `start_services = false`, `services = 0`,
`result = ExitError`. -/
def initialState (param : ScannerBasicParam) : MainState :=
  { isInitialized := false, s_scanner := none, runState := .scanner_init,
    parser := some param, start_services := false, services := none,
    result := ExitError, nextId := 0, trace := [] }

/-- The statement `delete s_scanner;` (line 447): the object is released, the
pointer keeps its value; deleting a null pointer does nothing. -/
def deleteScanner (s : MainState) : MainState :=
  match s.s_scanner with
  | some id => { s with trace := s.trace ++ [.deleteSession id] }
  | none => s

/-- The statement `s_scanner = new SickScanCommonTcp(..., colaDialectId)`. -/
def newScanner (cfg : Config) (s : MainState) : MainState :=
  { s with s_scanner := some s.nextId, nextId := s.nextId + 1,
           trace := s.trace ++ [.newSession s.nextId cfg.colaDialectId] }

/-- Lines 459-463: `setEmulSensor(true)` when emulation is on, then
`result = s_scanner->init(nhPriv)` on the session `id`. -/
def callInit (cfg : Config) (e : IterEnv) (id : Nat) (s : MainState) : MainState :=
  let s := if cfg.emulSensor then { s with trace := s.trace ++ [.setEmulSensor id] } else s
  { s with result := e.initResult, trace := s.trace ++ [.init id e.initResult] }

/-- Lines 471-477: read `start_services` (an absent key leaves the variable as it
is) and, when it is true, construct the services object against the session `id`
and the protocol flag of the parser. `none` when the parser pointer is null. -/
def startServices (e : IterEnv) (id : Nat) (s : MainState) : Option MainState :=
  let s := { s with start_services := e.startServices.getD s.start_services }
  if s.start_services = true then
    match s.parser with
    | some p =>
      some { s with services := some { id := s.nextId, session := id,
                                       binary := p.useBinaryProtocol },
                    nextId := s.nextId + 1,
                    trace := s.trace ++ [.newServices s.nextId id] }
    | none => none
  else some s

/-- Lines 482-496: the run state chosen at the end of `case scanner_init`. -/
def nextRunState (cfg : Config) (s : MainState) : MainState :=
  if s.result = ExitSuccess then
    let s := if cfg.changeIP then { s with runState := .scanner_finalize } else s
    { s with runState := .scanner_run }
  else
    { s with runState := .scanner_init }

/-- The body of `case scanner_init` after the construction of the session `id`
(lines 459-497): `init`, the return on `ExitError` or `ExitFatal`, the start of the
services, `isInitialized = true` and the next run state. -/
def initCase (cfg : Config) (e : IterEnv) (id : Nat) (s : MainState) : Outcome :=
  let s := callInit cfg e id s
  if s.result = ExitError ∨ s.result = ExitFatal then
    .returned s.result s
  else
    match startServices e id s with
    | none => .fault
    | some s => .proceed (nextRunState cfg { s with isInitialized := true })

/-- One pass through the `switch (runState)` of the main loop (lines 442-514). -/
def iteration (cfg : Config) (e : IterEnv) (s : MainState) : Outcome :=
  match s.runState with
  | .scanner_init =>
    let s := deleteScanner s
    if cfg.useTCP then
      let id := s.nextId
      initCase cfg e id (newScanner cfg s)
    else
      .exited (-1) s
  | .scanner_run =>
    if s.result = ExitSuccess then
      match s.s_scanner with
      | some id =>
        .proceed { s with result := e.loopResult,
                           trace := s.trace ++ [.rosSpinOnce, .loopOnce id e.loopResult] }
      | none => .fault
    else
      .proceed { s with runState := .scanner_finalize }
  | .scanner_finalize => .proceed s

/-- The loop `while (rosOk()) { switch (runState) ... }`: iteration `k` is answered
by `env k`. `none` when the fuel runs out before the loop is left; `proceed s`
when `rosOk()` was false in state `s`. -/
def mainLoop (cfg : Config) (env : Nat → IterEnv) : Nat → Nat → MainState → Option Outcome
  | 0, _, _ => none
  | fuel + 1, k, s =>
    if (env k).rosOk then
      match iteration cfg (env k) s with
      | .proceed s' => mainLoop cfg env fuel (k + 1) s'
      | o => some o
    else
      some (.proceed s)

/-- The teardown after the main loop (lines 516-530). -/
def teardown (s : MainState) : MainState :=
  let s : MainState :=
    match s.services with
    | some sv =>
      { s with trace := s.trace ++ [Event.deleteServices sv.id], services := none }
    | none => s
  let s : MainState :=
    match s.s_scanner with
    | some id =>
      { s with trace := s.trace ++ [Event.deleteSession id], s_scanner := none }
    | none => s
  let s : MainState :=
    match s.parser with
    | some _ => { s with trace := s.trace ++ [Event.deleteParser], parser := none }
    | none => s
  s

/-- The main loop from state `s` at iteration `k`, followed by the teardown and
`return result`. -/
def runFrom (cfg : Config) (env : Nat → IterEnv) (fuel k : Nat) (s : MainState) :
    Option Outcome :=
  match mainLoop cfg env fuel k s with
  | some (.proceed s') => some (.returned s'.result (teardown s'))
  | o => o

/-- Values of the locals `useTCP`, `changeIP`, `emulSensor` when the parser is
constructed (line 366). -/
structure Startup where
  useTCP : Bool
  changeIP : Bool
  emulSensor : Bool
  deriving DecidableEq, Repr

/-- The configuration the main loop runs with: the start-up values and the outcome
of the protocol set-up. -/
def configOf (st : Startup) (reg : Registry) (param : ScannerBasicParam) : Config :=
  let c := selectDialect reg param st.emulSensor
  { useTCP := st.useTCP, emulSensor := c.emulSensor, changeIP := st.changeIP,
    colaDialectId := c.colaDialectId }

/-- The function `mainGenericLaser` from the construction of the parser to its
return. -/
def mainGenericLaser (st : Startup) (reg : Registry) (param : ScannerBasicParam)
    (env : Nat → IterEnv) (fuel : Nat) : Option Outcome :=
  runFrom (configOf st reg param) env fuel 0
    (initialState (selectDialect reg param st.emulSensor).param)

/-! ## Reading the trace -/

/-- Effect of one event on the list of sessions constructed and not yet released. -/
def sessionStep (live : List Nat) : Event → List Nat
  | .newSession id _ => live ++ [id]
  | .deleteSession id => live.filter (fun j => j ≠ id)
  | _ => live

/-- Identities of the sessions constructed and not yet released, oldest first. -/
def liveSessions (tr : List Event) : List Nat :=
  tr.foldl sessionStep []

/-- Effect of one event on the list of services handles constructed and not yet
released, each with the session it was built against. -/
def servicesStep (live : List (Nat × Nat)) : Event → List (Nat × Nat)
  | .newServices id session => live ++ [(id, session)]
  | .deleteServices id => live.filter (fun p => p.1 ≠ id)
  | _ => live

/-- The services handles constructed and not yet released, oldest first, each with
the session it was built against. -/
def liveServices (tr : List Event) : List (Nat × Nat) :=
  tr.foldl servicesStep []

/-- Number of calls of the session constructor. -/
def constructCalls (tr : List Event) : Nat :=
  tr.countP (fun ev => match ev with | .newSession _ _ => true | _ => false)

/-- Whether every construction of a session in `tr` finds no session live, given
the sessions `live` before `tr`: a session constructed earlier has been released
before the next one is constructed. -/
def releasedBeforeConstruct : List Nat → List Event → Bool
  | _, [] => true
  | live, ev :: rest =>
    (match ev with
      | .newSession _ _ => live.isEmpty
      | _ => true) && releasedBeforeConstruct (sessionStep live ev) rest

/-- The state an outcome ends in, if it has one. -/
def Outcome.state? : Outcome → Option MainState
  | .proceed s => some s
  | .returned _ s => some s
  | .exited _ s => some s
  | .fault => none

/-- The events recorded when an outcome is reached (none for a fault). -/
def Outcome.trace (o : Outcome) : List Event :=
  match o.state? with
  | some s => s.trace
  | none => []

/-- The state after `n` passes through the loop body, pass `k + i` answered by
`env (k + i)`, while the loop condition holds; a pass that returns, exits or faults
ends the sequence. -/
def loopPasses (cfg : Config) (env : Nat → IterEnv) : Nat → Nat → MainState → Outcome
  | 0, _, s => .proceed s
  | n + 1, k, s =>
    match iteration cfg (env k) s with
    | .proceed s' => loopPasses cfg env n (k + 1) s'
    | o => o

/-- Whether every session constructed in `tr` was given the dialect byte `d`. -/
def dialectOnly (d : Char) (tr : List Event) : Bool :=
  tr.all (fun ev => match ev with
    | .newSession _ c => c == d
    | _ => true)

/-! ## Concrete inputs -/

/-- A registry in which the user asks for the ASCII protocol. -/
def asciiRegistry : Registry :=
  fun k => if k = "use_binary_protocol" then some (.bool false) else none

/-- A device profile with one layer whose default protocol is binary. -/
def oneLayerParam : ScannerBasicParam :=
  { numberOfLayers := 1, useBinaryProtocol := true }

/-- Start-up values: TCP in use, no address change, no emulation. -/
def tcpStartup : Startup :=
  { useTCP := true, changeIP := false, emulSensor := false }

/-- A configuration with TCP in use, binary dialect, no address change. -/
def tcpConfig : Config :=
  { useTCP := true, emulSensor := false, changeIP := false, colaDialectId := 'B' }

/-- Answers of an iteration before which the host runtime has stopped running. -/
def stopped : IterEnv :=
  { rosOk := false, initResult := 0, startServices := none, loopResult := 0 }

/-- An environment given by the answers of the first iterations; afterwards the
host runtime keeps running and every call succeeds. -/
def scriptEnv (script : List IterEnv) : Nat → IterEnv :=
  fun k => script.getD k
    { rosOk := true, initResult := ExitSuccess, startServices := none,
      loopResult := ExitSuccess }

/-- Answers of an iteration in which the host runtime is running, `init` returns
`r`, `start_services` reads as `sv` and `loopOnce` returns `l`. -/
def answers (r : Int) (sv : Option Bool) (l : Int) : IterEnv :=
  { rosOk := true, initResult := r, startServices := sv, loopResult := l }

/-- A configuration with TCP in use, binary dialect and an address change pending
(`new_IP_address` non-empty, `changeIP = true`). -/
def changeIpConfig : Config :=
  { useTCP := true, emulSensor := false, changeIP := true, colaDialectId := 'B' }

/-- The environment in which the host runtime keeps running, `init` succeeds and
the first call of `loopOnce` returns `ExitError`. -/
def acquisitionFailureEnv : Nat → IterEnv :=
  scriptEnv [answers ExitSuccess none ExitSuccess, answers ExitSuccess none ExitError]

/-- The state three passes into `acquisitionFailureEnv`: the acquisition has failed
and the run state is `scanner_finalize`. -/
def afterAcquisitionFailure : MainState :=
  { isInitialized := true, s_scanner := some 0, runState := .scanner_finalize,
    parser := some oneLayerParam, start_services := false, services := none,
    result := ExitError, nextId := 1,
    trace := [.newSession 0 'B', .init 0 ExitSuccess, .rosSpinOnce, .loopOnce 0 ExitError] }

/-- The events of an init pass after the construction of the session `id`: the
emulation switch (if on), the call of `init` with its result, and the construction
of the services object `sid` (if `start_services` is true). -/
def initTail (emul : Bool) (id : Nat) (r : Int) (sv : Bool) (sid : Nat) : List Event :=
  (if emul then [Event.setEmulSensor id] else []) ++ [Event.init id r]
    ++ (if sv then [Event.newServices sid id] else [])

/-- The environment in which the host runtime keeps running, the first `init`
returns `ExitError` and every later call succeeds. -/
def errorThenSuccessEnv : Nat → IterEnv :=
  scriptEnv [answers ExitError none ExitSuccess, answers ExitSuccess none ExitSuccess]

/-- The environment in which the host runtime keeps running, the first `init`
returns the code 3 (none of the three exit codes) and every later call succeeds. -/
def otherThenSuccessEnv : Nat → IterEnv :=
  scriptEnv [answers 3 none ExitSuccess, answers ExitSuccess none ExitSuccess]

/-- The environment in which the host runtime keeps running, the first `init`
returns `ExitFatal` and every later call would succeed. -/
def fatalThenSuccessEnv : Nat → IterEnv :=
  scriptEnv [answers ExitFatal (some true) ExitSuccess]

/-- The environment in which the host runtime keeps running, `start_services` is
set, the first `init` returns the code 3 (none of the three exit codes) and the
second `init` succeeds. -/
def servicesRetryEnv : Nat → IterEnv :=
  scriptEnv [answers 3 (some true) ExitSuccess, answers ExitSuccess (some true) ExitSuccess]

/-- The run of `servicesRetryEnv` in which the host runtime stops after two
passes. -/
def servicesRetryStopEnv : Nat → IterEnv :=
  scriptEnv [answers 3 (some true) ExitSuccess, answers ExitSuccess (some true) ExitSuccess,
    stopped]

/-- The state of the main loop while acquisition is running on session 0. -/
def runningState : MainState :=
  { isInitialized := true, s_scanner := some 0, runState := .scanner_run,
    parser := some oneLayerParam, start_services := false, services := none,
    result := ExitSuccess, nextId := 1,
    trace := [.newSession 0 'B', .init 0 ExitSuccess] }

/-- The state in which `mainGenericLaser` returns when the first `init` returns
the code `r`, one of `ExitError` and `ExitFatal`: session 0 constructed and not
released, parser not released. -/
def afterInitFailure (r : Int) : MainState :=
  { isInitialized := false, s_scanner := some 0, runState := .scanner_init,
    parser := some oneLayerParam, start_services := false, services := none,
    result := r, nextId := 1,
    trace := [.newSession 0 'B', .init 0 r] }

/-- The state two passes into `servicesRetryEnv`: session 0 released, session 2
alive, the services objects 1 (built against session 0) and 3 (built against
session 2) both constructed and neither released. -/
def afterServicesRetry : MainState :=
  { isInitialized := true, s_scanner := some 2, runState := .scanner_run,
    parser := some oneLayerParam, start_services := true,
    services := some { id := 3, session := 2, binary := true },
    result := ExitSuccess, nextId := 4,
    trace := [.newSession 0 'B', .init 0 3, .newServices 1 0, .deleteSession 0,
      .newSession 2 'B', .init 2 ExitSuccess, .newServices 3 2] }

/-! ## Strings and `getTagVal` -/

/-- The call `s.find(pat)` of `std::string`: the position of the first occurrence of
`pat` in `s`, `none` for `npos`. Strings are lists of characters here; the patterns
searched for in the source are plain ASCII, so positions agree with byte
positions up to the first occurrence. -/
def find (pat : List Char) : List Char → Option Nat
  | [] => if pat = [] then some 0 else none
  | c :: cs =>
    if pat.isPrefixOf (c :: cs) then some 0 else (find pat cs).map (fun pos => pos + 1)

/-- The call `s.substr(pos, count)` of `std::string` for `pos` not beyond the end
of `s` (the only way it is called in `getTagVal`); `count = none` stands for the
default `npos`. -/
def substr (s : List Char) (pos : Nat) (count : Option Nat) : List Char :=
  match count with
  | some n => (s.drop pos).take n
  | none => s.drop pos

/-- The return value and the two output parameters of `getTagVal`. -/
structure TagVal where
  ret : Bool
  tag : String
  val : String
  deriving DecidableEq, Repr

/-- The function `getTagVal` (lines 120-138): split `<tag>:=<value>`. -/
def getTagVal (tagVal : String) : TagVal :=
  match find ":=".data tagVal.data with
  | none => { ret := false, tag := "", val := "" }
  | some pos =>
    { ret := true, tag := String.mk (substr tagVal.data 0 (some pos)),
      val := String.mk (substr tagVal.data (pos + 2) none) }

/-- The function `ends_with` (lines 159-164): `std::equal` over the reversed ending
and the reversed value, after the length test. -/
def ends_with (value ending : String) : Bool :=
  if ending.data.length > value.data.length then false
  else ending.data.reverse.isPrefixOf value.data.reverse

/-- Whether the text contains `:=` somewhere. -/
def ContainsAssign (s : List Char) : Prop :=
  ∃ pre post : List Char, s = pre ++ ':' :: '=' :: post

/-! ## The signal handler -/

/-- The function `rosSignalHandler` (lines 141-157) on the globals: with a session
at hand, stop the scan data if `isInitialized` and set the run state to
`scanner_finalize`; in every case call `rosShutdown`. The signal number is only
logged. -/
def rosSignalHandler (s : MainState) : MainState :=
  let s : MainState :=
    match s.s_scanner with
    | some id =>
      let s : MainState :=
        if s.isInitialized then { s with trace := s.trace ++ [Event.stopScanData id] } else s
      { s with runState := .scanner_finalize }
    | none => s
  { s with trace := s.trace ++ [Event.rosShutdown] }

/-- The most recent call of `init` in the trace: the session it was called on and
its result. -/
def lastInit (tr : List Event) : Option (Nat × Int) :=
  tr.foldl (fun acc ev =>
    match ev with
    | .init id r => some (id, r)
    | _ => acc) none

/-- A device profile with five layers whose default protocol is ASCII. -/
def fiveLayerParam : ScannerBasicParam :=
  { numberOfLayers := 5, useBinaryProtocol := false }

/-- The environment in which the host runtime keeps running, the first `init`
returns the code 3 (none of the three exit codes) and the second returns
`ExitError`. -/
def otherThenErrorEnv : Nat → IterEnv :=
  scriptEnv [answers 3 none ExitSuccess, answers ExitError none ExitSuccess]

/-- The state after the first pass of `otherThenSuccessEnv`: `init` on session 0
has returned the code 3, `isInitialized` is true and the run state is
`scanner_init`. -/
def afterFailedInit : MainState :=
  { isInitialized := true, s_scanner := some 0, runState := .scanner_init,
    parser := some oneLayerParam, start_services := false, services := none,
    result := 3, nextId := 1,
    trace := [.newSession 0 'B', .init 0 3] }

/-- The state in which `mainGenericLaser` returns in `otherThenErrorEnv`: the
retry has constructed session 1, whose `init` returned `ExitError`. -/
def afterRetryError : MainState :=
  { isInitialized := true, s_scanner := some 1, runState := .scanner_init,
    parser := some oneLayerParam, start_services := false, services := none,
    result := ExitError, nextId := 2,
    trace := [.newSession 0 'B', .init 0 3, .deleteSession 0, .newSession 1 'B',
      .init 1 ExitError] }

/-! ## The configuration injector -/

/-- One assignment of a launch file: the entries at one index of `tagList`,
`typeList` and `valList`. -/
structure LaunchAssignment where
  tag : String
  type : String
  val : String
  deriving DecidableEq, Repr

/-- What `parseLaunchfileSetParameter` calls outside the source file:
`LaunchParser::parseFile` (`none` when it returns false, else the assignments it
filled in) and the conversions `std::stoi`, `std::stof`, `std::stod` (`none` or
`false` when the conversion throws). -/
structure Collaborators where
  parseFile : String → Option (List LaunchAssignment)
  stoi : String → Option Int
  stof : String → Bool
  stod : String → Bool

/-- The body of the loop over the assignments of a launch file (lines 199-209): the
registry after the write, `none` when a conversion throws. -/
def setLaunchParam (c : Collaborators) (reg : Registry) (a : LaunchAssignment) :
    Option Registry :=
  if a.type = "bool" ∧ a.val.data ≠ [] then
    some (rosSetParam reg a.tag
      (.bool (a.val.data.head? == some '1' || a.val.data.head? == some 't'
        || a.val.data.head? == some 'T')))
  else if a.type = "int" ∧ a.val.data ≠ [] then
    (c.stoi a.val).map (fun i => rosSetParam reg a.tag (.int i))
  else if a.type = "float" ∧ a.val.data ≠ [] then
    if c.stof a.val then some (rosSetParam reg a.tag (.float a.val)) else none
  else if a.type = "double" ∧ a.val.data ≠ [] then
    if c.stod a.val then some (rosSetParam reg a.tag (.double a.val)) else none
  else
    some (rosSetParam reg a.tag (.str a.val))

/-- The loop over the assignments of one launch file (lines 197-210). -/
def applyAssignments (c : Collaborators) : Registry → List LaunchAssignment → Option Registry
  | reg, [] => some reg
  | reg, a :: rest =>
    match setLaunchParam c reg a with
    | some reg' => applyAssignments c reg' rest
    | none => none

/-- How the first loop of `parseLaunchfileSetParameter` ends: it runs through with
a value of `launchArgcFileIdx` and a registry, the process exits, or a conversion
throws. -/
inductive LaunchLoopResult where
  | done (launchArgcFileIdx : Int) (reg : Registry)
  | exited (code : Int)
  | threw

/-- The first loop of `parseLaunchfileSetParameter` (lines 182-212) from index `n`
on, over the arguments `argv[n], argv[n+1], ...`. -/
def launchLoop (c : Collaborators) : Nat → List String → Int → Registry → LaunchLoopResult
  | _, [], launchArgcFileIdx, reg => .done launchArgcFileIdx reg
  | n, argv_str :: rest, launchArgcFileIdx, reg =>
    if ends_with argv_str ".launch" then
      match c.parseFile argv_str with
      | none => .exited (-1)
      | some assignments =>
        match applyAssignments c reg assignments with
        | some reg' => launchLoop c (n + 1) rest n reg'
        | none => .threw
    else launchLoop c (n + 1) rest launchArgcFileIdx reg

/-- The second loop of `parseLaunchfileSetParameter` (lines 214-229) from index `n`
on, with the return value: `false` at the first argument that is neither a
`tag:=value` token nor at index `launchArgcFileIdx`. -/
def tokenLoop : Nat → List String → Int → Registry → Bool × Registry
  | _, [], _, reg => (true, reg)
  | n, argv_str :: rest, launchArgcFileIdx, reg =>
    if (getTagVal argv_str).ret then
      tokenLoop (n + 1) rest launchArgcFileIdx
        (rosSetParam reg (getTagVal argv_str).tag (.str (getTagVal argv_str).val))
    else if launchArgcFileIdx ≠ (n : Int) then (false, reg)
    else tokenLoop (n + 1) rest launchArgcFileIdx reg

/-- How `parseLaunchfileSetParameter` ends: it returns a value, with the registry
it leaves, or the process exits, or a conversion throws. -/
inductive ParseOutcome where
  | returned (ok : Bool) (reg : Registry)
  | exited (code : Int)
  | threw

/-- The function `parseLaunchfileSetParameter` (lines 177-231); `argv` has `argc`
entries, the loops start at index 1. -/
def parseLaunchfileSetParameter (c : Collaborators) (reg : Registry) (argv : List String) :
    ParseOutcome :=
  match launchLoop c 1 (argv.drop 1) (-1) reg with
  | .done launchArgcFileIdx reg' =>
    .returned (tokenLoop 1 (argv.drop 1) launchArgcFileIdx reg').1
      (tokenLoop 1 (argv.drop 1) launchArgcFileIdx reg').2
  | .exited code => .exited code
  | .threw => .threw

/-- The value returned, if the function returns. -/
def ParseOutcome.ok? : ParseOutcome → Option Bool
  | .returned ok _ => some ok
  | _ => none

/-- The registry left, if the function returns. -/
def ParseOutcome.reg? : ParseOutcome → Option Registry
  | .returned _ reg => some reg
  | _ => none

/-- The registry with no key. -/
def emptyRegistry : Registry := fun _ => none

/-- Collaborators for the examples: every launch file parses to no assignment,
except `typed.launch`, which assigns `true` to the boolean `flag`, an empty text to
the boolean `empty_flag` and `abc` to the integer `count`. The conversions are
given on the texts the examples use: `std::stoi` reads `7` and throws on `abc`; no
float or double value occurs. -/
def exampleCollaborators : Collaborators :=
  { parseFile := fun path =>
      if path = "typed.launch" then
        some [{ tag := "flag", type := "bool", val := "true" },
              { tag := "empty_flag", type := "bool", val := "" },
              { tag := "count", type := "int", val := "abc" }]
      else some [],
    stoi := fun s => if s = "7" then some 7 else none,
    stof := fun _ => false,
    stod := fun _ => false }

/-! ## Ownership under the three exit codes -/

end SickGenericLaser

namespace SickGenericLaser

/-! ## Registry lemmas -/

theorem rosDeclareParam_present (reg : Registry) (key : String) (dflt v : ParamValue)
    (h : reg key = some v) : rosDeclareParam reg key dflt = reg := by
  simp [rosDeclareParam, h]

theorem rosDeclareParam_other (reg : Registry) (key k : String) (dflt : ParamValue)
    (h : k ≠ key) : rosDeclareParam reg key dflt k = reg k := by
  unfold rosDeclareParam
  cases reg key with
  | some _ => rfl
  | none => simp [rosSetParam, h]

/-- The dialect byte chosen when the registry holds the boolean preference `p`. -/
theorem selectDialect_byte (reg : Registry) (param : ScannerBasicParam) (emul p : Bool)
    (hp : reg "use_binary_protocol" = some (.bool p)) :
    (selectDialect reg param emul).colaDialectId =
      if p = false ∧ param.numberOfLayers ≤ 4 then 'A' else 'B' := by
  have hne : ("use_binary_protocol" : String) ≠ "emul_sensor" := by decide
  have h1 : rosDeclareParam reg "emul_sensor" (.bool emul) "use_binary_protocol"
      = some (.bool p) := by
    rw [rosDeclareParam_other _ _ _ _ hne, hp]
  have h2 : rosGetParamBool (rosDeclareParam (rosDeclareParam reg "emul_sensor" (.bool emul))
      "use_binary_protocol" (.bool true)) "use_binary_protocol" = some p := by
    rw [rosDeclareParam_present _ _ _ _ h1]
    simp [rosGetParamBool, h1]
  unfold selectDialect
  simp only [h2]
  cases p with
  | true => simp
  | false =>
    by_cases hn : param.numberOfLayers > 4
    · have : ¬ param.numberOfLayers ≤ 4 := by omega
      simp [hn, this]
    · have : param.numberOfLayers ≤ 4 := by omega
      simp [hn, this]


/-! ## The exit codes are distinct -/

theorem exitError_ne_success : ExitError ≠ ExitSuccess := by decide

theorem exitFatal_ne_success : ExitFatal ≠ ExitSuccess := by decide

theorem exitFatal_ne_error : ExitFatal ≠ ExitError := by decide

/-! ## One pass through the loop body, case by case -/

theorem deleteScanner_nextId (s : MainState) : (deleteScanner s).nextId = s.nextId := by
  unfold deleteScanner; cases s.s_scanner <;> rfl

theorem deleteScanner_trace (s : MainState) :
    (deleteScanner s).trace = s.trace ++ s.s_scanner.toList.map Event.deleteSession := by
  unfold deleteScanner; cases s.s_scanner <;> simp

/-- In `scanner_init` with TCP in use, when `init` returns `ExitError` or
`ExitFatal` the pass returns that code right after the call of `init`. -/
theorem iteration_init_failure (cfg : Config) (e : IterEnv) (s : MainState)
    (hrun : s.runState = .scanner_init) (htcp : cfg.useTCP = true)
    (hres : e.initResult = ExitError ∨ e.initResult = ExitFatal) :
    iteration cfg e s =
      .returned e.initResult (callInit cfg e s.nextId (newScanner cfg (deleteScanner s))) := by
  unfold iteration
  simp only [hrun, htcp, if_true, deleteScanner_nextId]
  unfold initCase
  have : (callInit cfg e s.nextId (newScanner cfg (deleteScanner s))).result = e.initResult := by
    simp [callInit]
  simp [this, hres]

/-- In `scanner_init` with TCP in use, when `init` returns neither `ExitError` nor
`ExitFatal` the pass goes on to start the services, sets `isInitialized` and
chooses the next run state. -/
theorem iteration_init_pass (cfg : Config) (e : IterEnv) (s : MainState)
    (hrun : s.runState = .scanner_init) (htcp : cfg.useTCP = true)
    (h1 : e.initResult ≠ ExitError) (h2 : e.initResult ≠ ExitFatal) :
    iteration cfg e s =
      match startServices e s.nextId
          (callInit cfg e s.nextId (newScanner cfg (deleteScanner s))) with
      | none => .fault
      | some s1 => .proceed (nextRunState cfg { s1 with isInitialized := true }) := by
  unfold iteration
  simp only [hrun, htcp, if_true, deleteScanner_nextId]
  unfold initCase
  have : (callInit cfg e s.nextId (newScanner cfg (deleteScanner s))).result = e.initResult := by
    simp [callInit]
  simp [this, h1, h2]

/-- With a parser at hand the services step always yields a state. -/
theorem startServices_some (e : IterEnv) (id : Nat) (s : MainState) (p : ScannerBasicParam)
    (hp : s.parser = some p) :
    startServices e id s =
      some (if e.startServices.getD s.start_services = true then
        { s with start_services := true,
                 services := some { id := s.nextId, session := id,
                                    binary := p.useBinaryProtocol },
                 nextId := s.nextId + 1,
                 trace := s.trace ++ [.newServices s.nextId id] }
      else { s with start_services := false }) := by
  unfold startServices
  cases h : e.startServices.getD s.start_services <;> simp [h, hp]

theorem nextRunState_trace (cfg : Config) (s : MainState) :
    (nextRunState cfg s).trace = s.trace := by
  unfold nextRunState
  by_cases h : s.result = ExitSuccess <;> cases hc : cfg.changeIP <;> simp [h]

/-- In `scanner_finalize` a pass through the loop body changes nothing. -/
theorem iteration_finalize (cfg : Config) (e : IterEnv) (s : MainState)
    (h : s.runState = .scanner_finalize) : iteration cfg e s = .proceed s := by
  simp [iteration, h]

/-- An init pass with TCP in use and a parser at hand whose `init` returns neither
`ExitError` nor `ExitFatal`: the state it goes on with. -/
theorem init_pass_shape (cfg : Config) (e : IterEnv) (s : MainState) (p : ScannerBasicParam)
    (hrun : s.runState = .scanner_init) (htcp : cfg.useTCP = true)
    (hp : s.parser = some p)
    (h1 : e.initResult ≠ ExitError) (h2 : e.initResult ≠ ExitFatal) :
    ∃ s', iteration cfg e s = .proceed s' ∧
      s'.s_scanner = some s.nextId ∧ s'.parser = some p ∧
      s'.runState = (if e.initResult = ExitSuccess then .scanner_run else .scanner_init) ∧
      s'.isInitialized = true ∧ s'.result = e.initResult ∧
      s'.start_services = e.startServices.getD s.start_services ∧
      s'.trace = s.trace ++ s.s_scanner.toList.map Event.deleteSession
        ++ [Event.newSession s.nextId cfg.colaDialectId]
        ++ initTail cfg.emulSensor s.nextId e.initResult
            (e.startServices.getD s.start_services) (s.nextId + 1) := by
  have hp' : (callInit cfg e s.nextId (newScanner cfg (deleteScanner s))).parser = some p := by
    cases hsc : s.s_scanner <;> cases hE : cfg.emulSensor <;>
      simp [callInit, newScanner, deleteScanner, hsc, hE, hp]
  rw [iteration_init_pass cfg e s hrun htcp h1 h2, startServices_some _ _ _ p hp']
  refine ⟨_, rfl, ?_⟩
  cases hsc : s.s_scanner <;> cases hE : cfg.emulSensor <;>
    cases hS : e.startServices.getD s.start_services <;>
    by_cases h0 : e.initResult = ExitSuccess <;> cases hc : cfg.changeIP <;>
    simp [nextRunState, callInit, newScanner, deleteScanner, initTail, hsc, hE, hS, h0, hc, hp]

/-- An init pass with TCP in use whose `init` returns `ExitError` or `ExitFatal`:
the state `mainGenericLaser` returns in. -/
theorem init_failure_shape (cfg : Config) (e : IterEnv) (s : MainState)
    (hrun : s.runState = .scanner_init) (htcp : cfg.useTCP = true)
    (hres : e.initResult = ExitError ∨ e.initResult = ExitFatal) :
    ∃ s', iteration cfg e s = .returned e.initResult s' ∧
      s'.services = s.services ∧ s'.runState = s.runState ∧
      s'.isInitialized = s.isInitialized ∧ s'.parser = s.parser ∧
      s'.start_services = s.start_services ∧
      s'.s_scanner = some s.nextId ∧ s'.result = e.initResult ∧
      s'.trace = s.trace ++ s.s_scanner.toList.map Event.deleteSession
        ++ [Event.newSession s.nextId cfg.colaDialectId]
        ++ ((if cfg.emulSensor then [Event.setEmulSensor s.nextId] else [])
            ++ [Event.init s.nextId e.initResult]) := by
  refine ⟨_, iteration_init_failure cfg e s hrun htcp hres, ?_⟩
  cases hsc : s.s_scanner <;> cases hE : cfg.emulSensor <;>
    simp [callInit, newScanner, deleteScanner, hsc, hE]

/-! ## The main loop -/

/-- A property of states that every pass through the loop body preserves holds for
the state of every outcome of the main loop. -/
theorem mainLoop_preserves (P : MainState → Prop) (cfg : Config) (env : Nat → IterEnv)
    (hstep : ∀ e s s', P s → (iteration cfg e s).state? = some s' → P s') :
    ∀ (fuel k : Nat) (s : MainState) (o : Outcome) (s' : MainState),
      P s → mainLoop cfg env fuel k s = some o → o.state? = some s' → P s' := by
  intro fuel
  induction fuel with
  | zero => intro k s o s' _ h; simp [mainLoop] at h
  | succ n ih =>
    intro k s o s' hP h ho
    unfold mainLoop at h
    by_cases hok : (env k).rosOk = true
    · simp only [hok, if_true] at h
      cases hit : iteration cfg (env k) s with
      | proceed s1 =>
        rw [hit] at h
        exact ih (k + 1) s1 o s' (hstep _ _ _ hP (by rw [hit]; rfl)) h ho
      | returned c s1 =>
        rw [hit] at h
        have : o = .returned c s1 := by simpa using h.symm
        subst this
        exact hstep (env k) s s' hP (by rw [hit]; exact ho)
      | exited c s1 =>
        rw [hit] at h
        have : o = .exited c s1 := by simpa using h.symm
        subst this
        exact hstep (env k) s s' hP (by rw [hit]; exact ho)
      | fault =>
        rw [hit] at h
        have : o = .fault := by simpa using h.symm
        subst this
        simp [Outcome.state?] at ho
    · simp only [hok] at h
      have : o = .proceed s := by simpa using h.symm
      subst this
      simp [Outcome.state?] at ho
      subst ho
      exact hP

/-- More fuel does not change an outcome the main loop has reached. -/
theorem mainLoop_mono (cfg : Config) (env : Nat → IterEnv) :
    ∀ (fuel k : Nat) (s : MainState) (o : Outcome) (extra : Nat),
      mainLoop cfg env fuel k s = some o → mainLoop cfg env (fuel + extra) k s = some o := by
  intro fuel
  induction fuel with
  | zero => intro k s o extra h; simp [mainLoop] at h
  | succ n ih =>
    intro k s o extra h
    have hadd : n + 1 + extra = (n + extra) + 1 := by omega
    rw [hadd]
    unfold mainLoop at h ⊢
    by_cases hok : (env k).rosOk = true
    · simp only [hok, if_true] at h ⊢
      cases hit : iteration cfg (env k) s with
      | proceed s1 =>
        rw [hit] at h
        exact ih (k + 1) s1 o extra h
      | returned c s1 => rw [hit] at h; exact h
      | exited c s1 => rw [hit] at h; exact h
      | fault => rw [hit] at h; exact h
    · simp only [hok] at h ⊢
      exact h

/-- While the host runtime is running, `n` passes that all go on are the first `n`
rounds of the main loop. -/
theorem mainLoop_after_passes (cfg : Config) (env : Nat → IterEnv) :
    ∀ (n k : Nat) (s s' : MainState) (fuel : Nat),
      (∀ i, i < n → (env (k + i)).rosOk = true) →
      loopPasses cfg env n k s = .proceed s' →
      mainLoop cfg env (n + fuel) k s = mainLoop cfg env fuel (k + n) s' := by
  intro n
  induction n with
  | zero =>
    intro k s s' fuel _ h
    simp [loopPasses] at h
    subst h
    simp
  | succ m ih =>
    intro k s s' fuel hok h
    have hadd : m + 1 + fuel = (m + fuel) + 1 := by omega
    rw [hadd]
    have h0 : (env k).rosOk = true := by simpa using hok 0 (by omega)
    unfold loopPasses at h
    conv_lhs => unfold mainLoop
    simp only [h0, if_true]
    cases hit : iteration cfg (env k) s with
    | proceed s1 =>
      rw [hit] at h
      simp only at h ⊢
      have := ih (k + 1) s1 s' fuel (fun i hi => by
        have := hok (i + 1) (by omega)
        rwa [show k + (i + 1) = k + 1 + i by omega] at this) h
      rw [this, show k + (m + 1) = k + 1 + m by omega]
    | returned c s1 => rw [hit] at h; simp at h
    | exited c s1 => rw [hit] at h; simp at h
    | fault => rw [hit] at h; simp at h

/-- In `scanner_finalize`, as long as the host runtime is running, the main loop
goes round without leaving: no amount of fuel yields an outcome. -/
theorem mainLoop_finalize_spins (cfg : Config) (env : Nat → IterEnv) (k0 : Nat)
    (hok : ∀ j, k0 ≤ j → (env j).rosOk = true) (s : MainState)
    (hs : s.runState = .scanner_finalize) :
    ∀ (fuel k : Nat), k0 ≤ k → mainLoop cfg env fuel k s = none := by
  intro fuel
  induction fuel with
  | zero => intro k _; rfl
  | succ n ih =>
    intro k hk
    unfold mainLoop
    simp only [hok k hk, if_true, iteration_finalize cfg (env k) s hs]
    exact ih (k + 1) (by omega)

theorem acquisitionFailureEnv_rosOk (j : Nat) : (acquisitionFailureEnv j).rosOk = true := by
  match j with
  | 0 => rfl
  | 1 => rfl
  | n + 2 => simp [acquisitionFailureEnv, scriptEnv, List.getD]

/-- When a pass returns from `mainGenericLaser`, so does the main loop, with the
same code and state, whatever fuel is left and whatever the later answers are. -/
theorem mainLoop_returned (cfg : Config) (env : Nat → IterEnv) (fuel k : Nat)
    (s s' : MainState) (c : Int) (hok : (env k).rosOk = true)
    (hit : iteration cfg (env k) s = .returned c s') :
    mainLoop cfg env (fuel + 1) k s = some (.returned c s') := by
  unfold mainLoop
  simp [hok, hit]

theorem runFrom_returned (cfg : Config) (env : Nat → IterEnv) (fuel k : Nat)
    (s s' : MainState) (c : Int) (hok : (env k).rosOk = true)
    (hit : iteration cfg (env k) s = .returned c s') :
    runFrom cfg env (fuel + 1) k s = some (.returned c s') := by
  unfold runFrom
  rw [mainLoop_returned cfg env fuel k s s' c hok hit]

/-- In `scanner_finalize` any number of passes changes nothing. -/
theorem loopPasses_finalize (cfg : Config) (env : Nat → IterEnv) (s : MainState)
    (hs : s.runState = .scanner_finalize) :
    ∀ (n k : Nat), loopPasses cfg env n k s = .proceed s := by
  intro n
  induction n with
  | zero => intro k; rfl
  | succ m ih =>
    intro k
    unfold loopPasses
    simp only [iteration_finalize cfg (env k) s hs]
    exact ih (k + 1)

theorem teardown_trace (s : MainState) :
    (teardown s).trace = s.trace ++ s.services.toList.map (fun sv => Event.deleteServices sv.id)
      ++ s.s_scanner.toList.map Event.deleteSession
      ++ s.parser.toList.map (fun _ => Event.deleteParser) := by
  cases hsv : s.services <;> cases hsc : s.s_scanner <;> cases hp : s.parser <;>
    simp [teardown, hsv, hsc, hp]

/-! ## Reading the trace of an init pass -/

theorem liveSessions_append (tr evs : List Event) :
    liveSessions (tr ++ evs) = evs.foldl sessionStep (liveSessions tr) := by
  simp [liveSessions, List.foldl_append]

theorem constructCalls_append (tr evs : List Event) :
    constructCalls (tr ++ evs) = constructCalls tr + constructCalls evs := by
  simp [constructCalls, List.countP_append]

theorem releasedBeforeConstruct_append (evs1 evs2 : List Event) :
    ∀ live : List Nat, releasedBeforeConstruct live (evs1 ++ evs2) =
      (releasedBeforeConstruct live evs1 &&
        releasedBeforeConstruct (evs1.foldl sessionStep live) evs2) := by
  induction evs1 with
  | nil => intro live; simp [releasedBeforeConstruct]
  | cons ev rest ih =>
    intro live
    simp [releasedBeforeConstruct, ih, Bool.and_assoc]

theorem initTail_sessions (emul : Bool) (id : Nat) (r : Int) (sv : Bool) (sid : Nat)
    (live : List Nat) : (initTail emul id r sv sid).foldl sessionStep live = live := by
  cases emul <;> cases sv <;> simp [initTail, sessionStep]

theorem initTail_constructCalls (emul : Bool) (id : Nat) (r : Int) (sv : Bool) (sid : Nat) :
    constructCalls (initTail emul id r sv sid) = 0 := by
  cases emul <;> cases sv <;> simp [initTail, constructCalls]

theorem initTail_released (emul : Bool) (id : Nat) (r : Int) (sv : Bool) (sid : Nat)
    (live : List Nat) : releasedBeforeConstruct live (initTail emul id r sv sid) = true := by
  cases emul <;> cases sv <;> simp [initTail, releasedBeforeConstruct]

/-- What an init pass that goes on does to the session accounting: when the only
session alive is the one `s_scanner` points at, the pass releases it, constructs one
session, and afterwards exactly the new session is alive. -/
theorem init_pass_accounting (cfg : Config) (e : IterEnv) (s : MainState)
    (p : ScannerBasicParam) (hrun : s.runState = .scanner_init) (htcp : cfg.useTCP = true)
    (hp : s.parser = some p)
    (h1 : e.initResult ≠ ExitError) (h2 : e.initResult ≠ ExitFatal)
    (hlive : liveSessions s.trace = s.s_scanner.toList)
    (hrel : releasedBeforeConstruct [] s.trace = true) :
    ∃ s', iteration cfg e s = .proceed s' ∧
      s'.runState = (if e.initResult = ExitSuccess then .scanner_run else .scanner_init) ∧
      s'.parser = some p ∧ s'.s_scanner = some s.nextId ∧
      liveSessions s'.trace = [s.nextId] ∧
      releasedBeforeConstruct [] s'.trace = true ∧
      constructCalls s'.trace = constructCalls s.trace + 1 := by
  obtain ⟨s', hit, hsc, hpar, hrs, _, _, _, htr⟩ :=
    init_pass_shape cfg e s p hrun htcp hp h1 h2
  refine ⟨s', hit, hrs, hpar, hsc, ?_, ?_, ?_⟩
  · rw [htr, liveSessions_append, initTail_sessions, liveSessions_append,
      liveSessions_append, hlive]
    cases s.s_scanner <;> simp [sessionStep]
  · have hfold : List.foldl sessionStep [] s.trace = s.s_scanner.toList := hlive
    simp only [htr, releasedBeforeConstruct_append, List.foldl_append, initTail_released,
      hrel, hfold, Bool.and_true, Bool.true_and]
    cases s.s_scanner <;> simp [sessionStep, releasedBeforeConstruct]
  · rw [htr, constructCalls_append, initTail_constructCalls, constructCalls_append,
      constructCalls_append]
    cases s.s_scanner <;> simp [constructCalls]

/-! ## Dialect selection (C1) -/

theorem dialectOnly_append (d : Char) (tr evs : List Event) :
    dialectOnly d (tr ++ evs) = (dialectOnly d tr && dialectOnly d evs) := by
  simp [dialectOnly, List.all_append]

theorem dialectOnly_deleteScanner (d : Char) (s : MainState)
    (h : dialectOnly d s.trace = true) : dialectOnly d (deleteScanner s).trace = true := by
  rw [deleteScanner_trace, dialectOnly_append, h]
  cases s.s_scanner <;> simp [dialectOnly]

theorem dialectOnly_newScanner (cfg : Config) (s : MainState)
    (h : dialectOnly cfg.colaDialectId s.trace = true) :
    dialectOnly cfg.colaDialectId (newScanner cfg s).trace = true := by
  simp [newScanner, dialectOnly_append, h]
  simp [dialectOnly]

theorem dialectOnly_callInit (d : Char) (cfg : Config) (e : IterEnv) (id : Nat)
    (s : MainState) (h : dialectOnly d s.trace = true) :
    dialectOnly d (callInit cfg e id s).trace = true := by
  cases hE : cfg.emulSensor <;> simp [callInit, hE, dialectOnly_append, h] <;>
    simp [dialectOnly]

theorem dialectOnly_startServices (d : Char) (e : IterEnv) (id : Nat) (s s1 : MainState)
    (h : dialectOnly d s.trace = true) (hs : startServices e id s = some s1) :
    dialectOnly d s1.trace = true := by
  unfold startServices at hs
  cases hS : e.startServices.getD s.start_services <;> simp [hS] at hs
  · subst hs; exact h
  · cases hp : s.parser with
    | none => simp [hp] at hs
    | some p =>
      simp [hp] at hs
      subst hs
      simp [dialectOnly_append, h]
      simp [dialectOnly]

/-- Every pass through the loop body hands the dialect byte of the configuration to
the session constructor. -/
theorem dialectOnly_iteration (cfg : Config) (e : IterEnv) (s s' : MainState)
    (hP : dialectOnly cfg.colaDialectId s.trace = true)
    (h : (iteration cfg e s).state? = some s') :
    dialectOnly cfg.colaDialectId s'.trace = true := by
  have hbase := dialectOnly_callInit _ cfg e s.nextId _
    (dialectOnly_newScanner cfg _ (dialectOnly_deleteScanner _ s hP))
  cases hrun : s.runState with
  | scanner_init =>
    cases htcp : cfg.useTCP with
    | false =>
      simp [iteration, hrun, htcp, Outcome.state?] at h
      subst h
      exact dialectOnly_deleteScanner _ s hP
    | true =>
      by_cases hres : e.initResult = ExitError ∨ e.initResult = ExitFatal
      · rw [iteration_init_failure cfg e s hrun htcp hres] at h
        simp [Outcome.state?] at h
        subst h
        exact hbase
      · have h1 : e.initResult ≠ ExitError := fun hh => hres (Or.inl hh)
        have h2 : e.initResult ≠ ExitFatal := fun hh => hres (Or.inr hh)
        rw [iteration_init_pass cfg e s hrun htcp h1 h2] at h
        cases hs : startServices e s.nextId
            (callInit cfg e s.nextId (newScanner cfg (deleteScanner s))) with
        | none => simp [hs, Outcome.state?] at h
        | some s1 =>
          simp [hs, Outcome.state?] at h
          subst h
          rw [nextRunState_trace]
          exact dialectOnly_startServices _ e _ _ s1 hbase hs
  | scanner_run =>
    unfold iteration at h
    simp only [hrun] at h
    by_cases hr : s.result = ExitSuccess
    · cases hsc : s.s_scanner with
      | none => simp [hr, hsc, Outcome.state?] at h
      | some id =>
        simp [hr, hsc, Outcome.state?] at h
        subst h
        simp [dialectOnly_append, hP]
        simp [dialectOnly]
    · simp [hr, Outcome.state?] at h
      subst h
      exact hP
  | scanner_finalize =>
    simp [iteration, hrun, Outcome.state?] at h
    subst h
    exact hP

theorem dialectOnly_teardown (d : Char) (s : MainState) (h : dialectOnly d s.trace = true) :
    dialectOnly d (teardown s).trace = true := by
  rw [teardown_trace]
  simp only [dialectOnly_append, h, Bool.true_and]
  cases s.services <;> cases s.s_scanner <;> cases s.parser <;> simp [dialectOnly]

theorem dialectOnly_mainGenericLaser (st : Startup) (reg : Registry)
    (param : ScannerBasicParam) (env : Nat → IterEnv) (fuel : Nat) (o : Outcome)
    (h : mainGenericLaser st reg param env fuel = some o) :
    dialectOnly (configOf st reg param).colaDialectId o.trace = true := by
  unfold mainGenericLaser runFrom at h
  have hinit : dialectOnly (configOf st reg param).colaDialectId
      (initialState (selectDialect reg param st.emulSensor).param).trace = true := by
    simp [initialState, dialectOnly]
  have hloop := mainLoop_preserves
    (fun s => dialectOnly (configOf st reg param).colaDialectId s.trace = true)
    (configOf st reg param) env
    (fun e s s' hP hs => dialectOnly_iteration _ e s s' hP hs) fuel 0
    (initialState (selectDialect reg param st.emulSensor).param)
  cases hm : mainLoop (configOf st reg param) env fuel 0
      (initialState (selectDialect reg param st.emulSensor).param) with
  | none => simp [hm] at h
  | some o1 =>
    rw [hm] at h
    cases o1 with
    | proceed s1 =>
      simp at h
      subst h
      exact dialectOnly_teardown _ s1 (hloop (.proceed s1) s1 hinit hm rfl)
    | returned c s1 =>
      simp at h
      subst h
      exact hloop _ s1 hinit hm rfl
    | exited c s1 =>
      simp at h
      subst h
      exact hloop _ s1 hinit hm rfl
    | fault =>
      simp at h
      subst h
      simp [Outcome.trace, Outcome.state?, dialectOnly]

/-- The first pass of the main loop, with TCP in use, starts by handing the dialect
byte of the configuration to the session constructor. -/
theorem first_pass_constructs (cfg : Config) (e : IterEnv) (param : ScannerBasicParam)
    (htcp : cfg.useTCP = true) :
    ∃ rest, (iteration cfg e (initialState param)).trace =
      Event.newSession 0 cfg.colaDialectId :: rest := by
  by_cases hres : e.initResult = ExitError ∨ e.initResult = ExitFatal
  · obtain ⟨s', hit, _, _, _, _, _, _, _, htr⟩ :=
      init_failure_shape cfg e (initialState param) rfl htcp hres
    refine ⟨(if cfg.emulSensor then [Event.setEmulSensor 0] else [])
        ++ [Event.init 0 e.initResult], ?_⟩
    rw [hit]
    simp only [Outcome.trace, Outcome.state?, htr]
    simp [initialState]
  · have h1 : e.initResult ≠ ExitError := fun hh => hres (Or.inl hh)
    have h2 : e.initResult ≠ ExitFatal := fun hh => hres (Or.inr hh)
    obtain ⟨s', hit, _, _, _, _, _, _, htr⟩ :=
      init_pass_shape cfg e (initialState param) param rfl htcp rfl h1 h2
    refine ⟨initTail cfg.emulSensor 0 e.initResult (e.startServices.getD false) (0 + 1), ?_⟩
    rw [hit]
    simp only [Outcome.trace, Outcome.state?, htr]
    simp [initialState]

/-- C1: when the registry holds the boolean preference `p` for
`use_binary_protocol` and the device profile has `n` layers, the dialect byte of
`mainGenericLaser` is 'A' for `p = false` and `n ≤ 4`, 'B' for `p = false` and
`n > 4`, and 'B' for `p = true`; with TCP in use the first pass of the main loop
hands this byte to the session constructor, and every call of the session
constructor during `mainGenericLaser` is handed it. -/
theorem dialect_handed_to_constructor (st : Startup) (reg : Registry)
    (param : ScannerBasicParam) (p : Bool)
    (hp : reg "use_binary_protocol" = some (.bool p)) :
    ((p = false ∧ param.numberOfLayers ≤ 4 → (configOf st reg param).colaDialectId = 'A') ∧
     (p = false ∧ param.numberOfLayers > 4 → (configOf st reg param).colaDialectId = 'B') ∧
     (p = true → (configOf st reg param).colaDialectId = 'B')) ∧
    (∀ e : IterEnv, st.useTCP = true →
      ∃ rest, (iteration (configOf st reg param) e
          (initialState (selectDialect reg param st.emulSensor).param)).trace =
        Event.newSession 0 (configOf st reg param).colaDialectId :: rest) ∧
    ∀ (env : Nat → IterEnv) (fuel : Nat) (o : Outcome),
      mainGenericLaser st reg param env fuel = some o →
        dialectOnly (configOf st reg param).colaDialectId o.trace = true := by
  have hbyte : (configOf st reg param).colaDialectId =
      if p = false ∧ param.numberOfLayers ≤ 4 then 'A' else 'B' := by
    simp only [configOf]
    exact selectDialect_byte reg param st.emulSensor p hp
  refine ⟨⟨?_, ?_, ?_⟩, ?_, ?_⟩
  · intro h
    rw [hbyte, if_pos h]
  · intro h
    have : ¬ (p = false ∧ param.numberOfLayers ≤ 4) := by
      intro hh
      omega
    rw [hbyte, if_neg this]
  · intro h
    have : ¬ (p = false ∧ param.numberOfLayers ≤ 4) := by
      intro hh
      rw [h] at hh
      exact Bool.noConfusion hh.1
    rw [hbyte, if_neg this]
  · intro e htcp
    exact first_pass_constructs (configOf st reg param) e _ (by simpa [configOf] using htcp)
  · intro env fuel o h
    exact dialectOnly_mainGenericLaser st reg param env fuel o h

/-- C1 at a concrete run: ASCII requested for a one-layer device; the session
constructed by the run is handed 'A'. -/
theorem dialect_handed_to_constructor_witness :
    (configOf tcpStartup asciiRegistry oneLayerParam).colaDialectId = 'A' ∧
    (∃ rest, (iteration (configOf tcpStartup asciiRegistry oneLayerParam)
        (answers ExitSuccess none ExitSuccess)
        (initialState (selectDialect asciiRegistry oneLayerParam tcpStartup.emulSensor).param)).trace =
      Event.newSession 0 (configOf tcpStartup asciiRegistry oneLayerParam).colaDialectId :: rest) ∧
    dialectOnly (configOf tcpStartup asciiRegistry oneLayerParam).colaDialectId
      (Outcome.returned 0
        { isInitialized := true, s_scanner := none, runState := .scanner_run,
          parser := none, start_services := false, services := none, result := 0,
          nextId := 1,
          trace := [Event.newSession 0 'A', Event.init 0 0, Event.deleteSession 0,
                    Event.deleteParser] }).trace = true :=
  ⟨(dialect_handed_to_constructor tcpStartup asciiRegistry oneLayerParam false rfl).1.1
      ⟨rfl, by decide⟩,
   (dialect_handed_to_constructor tcpStartup asciiRegistry oneLayerParam false rfl).2.1
      (answers ExitSuccess none ExitSuccess) rfl,
   (dialect_handed_to_constructor tcpStartup asciiRegistry oneLayerParam false rfl).2.2
      (scriptEnv [answers ExitSuccess none ExitSuccess, stopped]) 2 _ (by decide)⟩

/-! ## The init pass with a pending address change (C2) -/

/-- C2 (evaluation at the failing input): with an address change pending
(`changeIP = true`) and `init` returning `ExitSuccess`, the init pass ends with the
run state `scanner_run`: the assignment of `scanner_finalize` is overwritten. -/
theorem changeIP_init_success_ends_in_run :
    iteration changeIpConfig (answers ExitSuccess none ExitSuccess)
        (initialState oneLayerParam) =
      .proceed
        { isInitialized := true, s_scanner := some 0, runState := .scanner_run,
          parser := some oneLayerParam, start_services := false, services := none,
          result := ExitSuccess, nextId := 1,
          trace := [.newSession 0 'B', .init 0 ExitSuccess] } := by
  decide

/-! ## The finalize state (C3) -/

/-- C3 (evaluation at the failing input): after `init` succeeded and `loopOnce`
failed, three passes bring the run state to `scanner_finalize`; with the host
runtime still running, a further pass is performed and changes nothing, and the
main loop never leaves: `mainGenericLaser` reaches neither the teardown nor its
return, whatever the fuel. -/
theorem finalize_does_not_leave_loop :
    loopPasses tcpConfig acquisitionFailureEnv 3 0 (initialState oneLayerParam) =
        .proceed afterAcquisitionFailure ∧
    afterAcquisitionFailure.runState = .scanner_finalize ∧
    (acquisitionFailureEnv 3).rosOk = true ∧
    iteration tcpConfig (acquisitionFailureEnv 3) afterAcquisitionFailure =
        .proceed afterAcquisitionFailure ∧
    ∀ fuel, runFrom tcpConfig acquisitionFailureEnv fuel 0 (initialState oneLayerParam) = none := by
  have hpass : loopPasses tcpConfig acquisitionFailureEnv 3 0 (initialState oneLayerParam) =
      .proceed afterAcquisitionFailure := by decide
  refine ⟨hpass, rfl, by decide, by decide, ?_⟩
  intro fuel
  have hspin := mainLoop_finalize_spins tcpConfig acquisitionFailureEnv 0
    (fun j _ => acquisitionFailureEnv_rosOk j) afterAcquisitionFailure rfl
  have h3 : mainLoop tcpConfig acquisitionFailureEnv (3 + fuel) 0 (initialState oneLayerParam)
      = none := by
    rw [mainLoop_after_passes tcpConfig acquisitionFailureEnv 3 0 _ _ fuel
      (fun i _ => acquisitionFailureEnv_rosOk _) hpass]
    exact hspin fuel (0 + 3) (by omega)
  have hnone : mainLoop tcpConfig acquisitionFailureEnv fuel 0 (initialState oneLayerParam)
      = none := by
    cases hm : mainLoop tcpConfig acquisitionFailureEnv fuel 0 (initialState oneLayerParam) with
    | none => rfl
    | some o =>
      have := mainLoop_mono tcpConfig acquisitionFailureEnv fuel 0 _ o 3 hm
      rw [show fuel + 3 = 3 + fuel by omega, h3] at this
      exact Option.noConfusion this
  simp [runFrom, hnone]

/-! ## Reconnect accounting (C4) -/

/-- From an init state in which the only session alive is the one `s_scanner`
points at: `n` init passes whose `init` returns a code other than the three exit
codes, followed by one whose `init` succeeds. -/
theorem retry_passes (cfg : Config) (env : Nat → IterEnv) (htcp : cfg.useTCP = true) :
    ∀ (n k : Nat) (s : MainState) (p : ScannerBasicParam),
      s.runState = .scanner_init → s.parser = some p →
      liveSessions s.trace = s.s_scanner.toList →
      releasedBeforeConstruct [] s.trace = true →
      (∀ i, i < n → (env (k + i)).initResult ≠ ExitSuccess ∧
        (env (k + i)).initResult ≠ ExitError ∧ (env (k + i)).initResult ≠ ExitFatal) →
      (env (k + n)).initResult = ExitSuccess →
      ∃ s', loopPasses cfg env (n + 1) k s = .proceed s' ∧
        s'.runState = .scanner_run ∧
        constructCalls s'.trace = constructCalls s.trace + (n + 1) ∧
        releasedBeforeConstruct [] s'.trace = true ∧
        ∃ id, s'.s_scanner = some id ∧ liveSessions s'.trace = [id] := by
  intro n
  induction n with
  | zero =>
    intro k s p hrun hp hlive hrel _ hok
    have hok' : (env k).initResult = ExitSuccess := by simpa using hok
    have h1 : (env k).initResult ≠ ExitError := by rw [hok']; decide
    have h2 : (env k).initResult ≠ ExitFatal := by rw [hok']; decide
    obtain ⟨s', hit, hrs, _, hsc, hl, hr, hc⟩ :=
      init_pass_accounting cfg (env k) s p hrun htcp hp h1 h2 hlive hrel
    refine ⟨s', ?_, ?_, hc, hr, s.nextId, hsc, hl⟩
    · simp [loopPasses, hit]
    · rw [hrs, if_pos hok']
  | succ m ih =>
    intro k s p hrun hp hlive hrel hfail hok
    obtain ⟨h0, h1, h2⟩ : (env k).initResult ≠ ExitSuccess ∧
        (env k).initResult ≠ ExitError ∧ (env k).initResult ≠ ExitFatal := by
      simpa using hfail 0 (by omega)
    obtain ⟨s1, hit, hrs, hpar, hsc, hl, hr, hc⟩ :=
      init_pass_accounting cfg (env k) s p hrun htcp hp h1 h2 hlive hrel
    rw [if_neg h0] at hrs
    have hl1 : liveSessions s1.trace = s1.s_scanner.toList := by rw [hl, hsc]; rfl
    obtain ⟨s', hpass, hrun', hc', hr', hid⟩ := ih (k + 1) s1 p hrs hpar hl1 hr
      (fun i hi => by
        have := hfail (i + 1) (by omega)
        rwa [show k + (i + 1) = k + 1 + i by omega] at this)
      (by rwa [show k + (m + 1) = k + 1 + m by omega] at hok)
    refine ⟨s', ?_, hrun', ?_, hr', hid⟩
    · conv_lhs => unfold loopPasses
      simp only [hit]
      exact hpass
    · rw [hc', hc]
      omega

/-- C4 (amended): if the host runtime stays running and `init` returns, on `N`
consecutive init passes, a failure code other than `ExitError` and `ExitFatal`,
and then `ExitSuccess`, the main loop reaches after `N + 1` passes a state in which
the session constructor has been called exactly `N + 1` times, every construction
found the sessions constructed before it released, exactly one session is alive
(the one `s_scanner` points at), and the run state is `scanner_run`. -/
theorem reconnect_accounting (cfg : Config) (env : Nat → IterEnv)
    (param : ScannerBasicParam) (N : Nat) (htcp : cfg.useTCP = true)
    (hrunning : ∀ k, k ≤ N → (env k).rosOk = true)
    (hfail : ∀ k, k < N → (env k).initResult ≠ ExitSuccess ∧
      (env k).initResult ≠ ExitError ∧ (env k).initResult ≠ ExitFatal)
    (hok : (env N).initResult = ExitSuccess) :
    ∃ s, loopPasses cfg env (N + 1) 0 (initialState param) = .proceed s ∧
      (∀ fuel, mainLoop cfg env (N + 1 + fuel) 0 (initialState param) =
        mainLoop cfg env fuel (N + 1) s) ∧
      constructCalls s.trace = N + 1 ∧
      releasedBeforeConstruct [] s.trace = true ∧
      (∃ id, s.s_scanner = some id ∧ liveSessions s.trace = [id]) ∧
      s.runState = .scanner_run := by
  obtain ⟨s, hpass, hrs, hc, hr, hid⟩ :=
    retry_passes cfg env htcp N 0 (initialState param) param rfl rfl rfl rfl
      (fun i hi => by simpa using hfail i hi) (by simpa using hok)
  refine ⟨s, hpass, ?_, ?_, hr, hid, hrs⟩
  · intro fuel
    have := mainLoop_after_passes cfg env (N + 1) 0 (initialState param) s fuel
      (fun i hi => by simpa using hrunning i (by omega)) hpass
    simpa using this
  · rw [hc]
    simp [initialState, constructCalls]

/-- C4 (amended) at a concrete run: one failure with code 3, then success. -/
theorem reconnect_accounting_witness :
    ∃ s, loopPasses tcpConfig otherThenSuccessEnv 2 0 (initialState oneLayerParam) =
        .proceed s ∧
      (∀ fuel, mainLoop tcpConfig otherThenSuccessEnv (2 + fuel) 0 (initialState oneLayerParam) =
        mainLoop tcpConfig otherThenSuccessEnv fuel 2 s) ∧
      constructCalls s.trace = 2 ∧
      releasedBeforeConstruct [] s.trace = true ∧
      (∃ id, s.s_scanner = some id ∧ liveSessions s.trace = [id]) ∧
      s.runState = .scanner_run :=
  reconnect_accounting tcpConfig otherThenSuccessEnv oneLayerParam 1 rfl
    (by decide) (by decide) (by decide)

/-- C4 (counterexample, N = 1): the host runtime stays running, the first `init`
returns `ExitError` and the second would succeed; the first pass returns
`ExitError` from `mainGenericLaser`: the constructor has been called once, not
twice, the run state is `scanner_init`, not `scanner_run`, and no second pass takes
place. -/
theorem error_code_stops_reconnect :
    (∀ k, k ≤ 1 → (errorThenSuccessEnv k).rosOk = true) ∧
    (errorThenSuccessEnv 0).initResult = ExitError ∧
    (errorThenSuccessEnv 1).initResult = ExitSuccess ∧
    ∃ s, loopPasses tcpConfig errorThenSuccessEnv 2 0 (initialState oneLayerParam) =
        .returned ExitError s ∧
      constructCalls s.trace = 1 ∧ s.runState = .scanner_init ∧
      ¬ (∃ s', loopPasses tcpConfig errorThenSuccessEnv 2 0 (initialState oneLayerParam) =
        .proceed s' ∧ constructCalls s'.trace = 2 ∧ s'.runState = .scanner_run) := by
  refine ⟨by decide, by decide, by decide,
    { isInitialized := false, s_scanner := some 0, runState := .scanner_init,
      parser := some oneLayerParam, start_services := false, services := none,
      result := ExitError, nextId := 1,
      trace := [.newSession 0 'B', .init 0 ExitError] }, by decide, by decide, rfl, ?_⟩
  rintro ⟨s', h, _⟩
  have h2 : loopPasses tcpConfig errorThenSuccessEnv 2 0 (initialState oneLayerParam) =
      .returned ExitError
        { isInitialized := false, s_scanner := some 0, runState := .scanner_init,
          parser := some oneLayerParam, start_services := false, services := none,
          result := ExitError, nextId := 1,
          trace := [.newSession 0 'B', .init 0 ExitError] } := by decide
  rw [h2] at h
  exact Outcome.noConfusion h

/-! ## Failure codes of `init` (C5, C6) -/

/-- C5 (amended): in an init pass (TCP in use, parser at hand), when `init`
returns `ExitError` or `ExitFatal`, `mainGenericLaser` returns that code from this
pass, in `scanner_init` and without another pass: both codes foreclose the retry.
When `init` returns a failure code other than these two, the state machine stays in
`scanner_init` and goes on, and the next pass releases the session, constructs a
new one and calls `init` on it. -/
theorem init_failure_codes (cfg : Config) (env : Nat → IterEnv) (fuel k : Nat)
    (s : MainState) (p : ScannerBasicParam)
    (hrun : s.runState = .scanner_init) (htcp : cfg.useTCP = true)
    (hp : s.parser = some p) (hok : (env k).rosOk = true) :
    ((env k).initResult = ExitError ∨ (env k).initResult = ExitFatal →
      ∃ s', iteration cfg (env k) s = .returned (env k).initResult s' ∧
        s'.runState = .scanner_init ∧
        runFrom cfg env (fuel + 1) k s = some (.returned (env k).initResult s') ∧
        constructCalls s'.trace = constructCalls s.trace + 1) ∧
    ((env k).initResult ≠ ExitSuccess → (env k).initResult ≠ ExitError →
      (env k).initResult ≠ ExitFatal →
      ∃ s', iteration cfg (env k) s = .proceed s' ∧ s'.runState = .scanner_init ∧
        ∃ rest, (iteration cfg (env (k + 1)) s').trace =
            s'.trace ++ [Event.deleteSession s.nextId,
              Event.newSession s'.nextId cfg.colaDialectId] ++ rest ∧
          Event.init s'.nextId (env (k + 1)).initResult ∈ rest) := by
  constructor
  · intro hres
    obtain ⟨s', hit, _, hrs, _, _, _, _, _, htr⟩ :=
      init_failure_shape cfg (env k) s hrun htcp hres
    refine ⟨s', hit, by rw [hrs, hrun], runFrom_returned cfg env fuel k s s' _ hok hit, ?_⟩
    rw [htr]
    simp only [constructCalls_append]
    cases s.s_scanner <;> cases cfg.emulSensor <;> simp [constructCalls]
  · intro h0 h1 h2
    obtain ⟨s', hit, hsc, hpar, hrs, _, _, _, _⟩ :=
      init_pass_shape cfg (env k) s p hrun htcp hp h1 h2
    rw [if_neg h0] at hrs
    refine ⟨s', hit, hrs, ?_⟩
    by_cases hres : (env (k + 1)).initResult = ExitError ∨ (env (k + 1)).initResult = ExitFatal
    · obtain ⟨s2, hit2, _, _, _, _, _, _, _, htr2⟩ :=
        init_failure_shape cfg (env (k + 1)) s' hrs htcp hres
      refine ⟨(if cfg.emulSensor then [Event.setEmulSensor s'.nextId] else [])
            ++ [Event.init s'.nextId (env (k + 1)).initResult], ?_, ?_⟩
      · rw [hit2]
        simp only [Outcome.trace, Outcome.state?, htr2, hsc]
        simp only [Option.toList, List.map, List.append_assoc, List.singleton_append,
          List.cons_append, List.nil_append]
      · simp
    · have h1' : (env (k + 1)).initResult ≠ ExitError := fun hh => hres (Or.inl hh)
      have h2' : (env (k + 1)).initResult ≠ ExitFatal := fun hh => hres (Or.inr hh)
      obtain ⟨s2, hit2, _, _, _, _, _, _, htr2⟩ :=
        init_pass_shape cfg (env (k + 1)) s' p hrs htcp hpar h1' h2'
      refine ⟨initTail cfg.emulSensor s'.nextId (env (k + 1)).initResult
            ((env (k + 1)).startServices.getD s'.start_services) (s'.nextId + 1), ?_, ?_⟩
      · rw [hit2]
        simp only [Outcome.trace, Outcome.state?, htr2, hsc]
        simp only [Option.toList, List.map, List.append_assoc, List.singleton_append,
          List.cons_append, List.nil_append]
      · simp [initTail]

/-- C5 (amended) at concrete runs: a first `init` returning `ExitError` ends
`mainGenericLaser`; a first `init` returning the code 3 is retried. -/
theorem init_failure_codes_witness :
    (∃ s', iteration tcpConfig (errorThenSuccessEnv 0) (initialState oneLayerParam) =
        .returned (errorThenSuccessEnv 0).initResult s' ∧
      s'.runState = .scanner_init ∧
      runFrom tcpConfig errorThenSuccessEnv (3 + 1) 0 (initialState oneLayerParam) =
        some (.returned (errorThenSuccessEnv 0).initResult s') ∧
      constructCalls s'.trace = constructCalls (initialState oneLayerParam).trace + 1) ∧
    (∃ s', iteration tcpConfig (otherThenSuccessEnv 0) (initialState oneLayerParam) =
        .proceed s' ∧ s'.runState = .scanner_init ∧
      ∃ rest, (iteration tcpConfig (otherThenSuccessEnv (0 + 1)) s').trace =
          s'.trace ++ [Event.deleteSession (initialState oneLayerParam).nextId,
            Event.newSession s'.nextId tcpConfig.colaDialectId] ++ rest ∧
        Event.init s'.nextId (otherThenSuccessEnv (0 + 1)).initResult ∈ rest) :=
  ⟨(init_failure_codes tcpConfig errorThenSuccessEnv 3 0 (initialState oneLayerParam)
      oneLayerParam rfl rfl rfl rfl).1 (Or.inl rfl),
   (init_failure_codes tcpConfig otherThenSuccessEnv 3 0 (initialState oneLayerParam)
      oneLayerParam rfl rfl rfl rfl).2 (by decide) (by decide) (by decide)⟩

/-- C5 (counterexample): the first `init` returns the generic error code
`ExitError` while the host runtime keeps running and a second `init` would
succeed; the pass does not stay in the loop: `mainGenericLaser` returns `ExitError`
after one construction and one call of `init`. -/
theorem generic_error_is_not_retried :
    (errorThenSuccessEnv 0).initResult = ExitError ∧
    iteration tcpConfig (errorThenSuccessEnv 0) (initialState oneLayerParam) =
      .returned ExitError (afterInitFailure ExitError) ∧
    runFrom tcpConfig errorThenSuccessEnv 5 0 (initialState oneLayerParam) =
      some (.returned ExitError (afterInitFailure ExitError)) ∧
    (afterInitFailure ExitError).trace = [.newSession 0 'B', .init 0 ExitError] := by
  decide

/-- C6: in an init pass (TCP in use, host runtime running) whose `init` returns
`ExitFatal`, `mainGenericLaser` returns `ExitFatal` from this pass, whatever fuel
and later answers there are: the services handle, the run state and
`isInitialized` are as before the pass, and the events of the pass end with the
call of `init` (release of the old session if any, construction, emulation switch
if on, `init`): no services object is constructed and no further construction,
`init` or `loopOnce` takes place. -/
theorem fatal_init_returns (cfg : Config) (env : Nat → IterEnv) (fuel k : Nat)
    (s : MainState) (hrun : s.runState = .scanner_init) (htcp : cfg.useTCP = true)
    (hok : (env k).rosOk = true) (hfatal : (env k).initResult = ExitFatal) :
    ∃ s', iteration cfg (env k) s = .returned ExitFatal s' ∧
      runFrom cfg env (fuel + 1) k s = some (.returned ExitFatal s') ∧
      s'.services = s.services ∧ s'.runState = s.runState ∧
      s'.isInitialized = s.isInitialized ∧
      s'.trace = s.trace ++ s.s_scanner.toList.map Event.deleteSession
        ++ [Event.newSession s.nextId cfg.colaDialectId]
        ++ ((if cfg.emulSensor then [Event.setEmulSensor s.nextId] else [])
            ++ [Event.init s.nextId ExitFatal]) := by
  obtain ⟨s', hit, hsv, hrs, hin, _, _, _, _, htr⟩ :=
    init_failure_shape cfg (env k) s hrun htcp (Or.inr hfatal)
  rw [hfatal] at hit htr
  exact ⟨s', hit, runFrom_returned cfg env fuel k s s' _ hok hit, hsv, hrs, hin, htr⟩

/-- C6 at a concrete run: the first `init` returns `ExitFatal` although
`start_services` is set. -/
theorem fatal_init_returns_witness :
    ∃ s', iteration tcpConfig (fatalThenSuccessEnv 0) (initialState oneLayerParam) =
        .returned ExitFatal s' ∧
      runFrom tcpConfig fatalThenSuccessEnv (4 + 1) 0 (initialState oneLayerParam) =
        some (.returned ExitFatal s') ∧
      s'.services = (initialState oneLayerParam).services ∧
      s'.runState = (initialState oneLayerParam).runState ∧
      s'.isInitialized = (initialState oneLayerParam).isInitialized ∧
      s'.trace = (initialState oneLayerParam).trace
        ++ (initialState oneLayerParam).s_scanner.toList.map Event.deleteSession
        ++ [Event.newSession (initialState oneLayerParam).nextId tcpConfig.colaDialectId]
        ++ ((if tcpConfig.emulSensor then
              [Event.setEmulSensor (initialState oneLayerParam).nextId] else [])
            ++ [Event.init (initialState oneLayerParam).nextId ExitFatal]) :=
  fatal_init_returns tcpConfig fatalThenSuccessEnv 4 0 (initialState oneLayerParam)
    rfl rfl rfl rfl

/-! ## Failure of the acquisition (C7) -/

/-- C7: in a run-state pass in which `loopOnce` is called on the session `id` and
returns a code `r` other than `ExitSuccess`, the pass records the call and leaves
the run state at `scanner_run`; the next pass sets the run state to
`scanner_finalize` and calls nothing (the trace is unchanged: no `rosSpinOnce`, no
`loopOnce`); and however many passes follow, the state stays the same, so
`loopOnce` is not called again. -/
theorem acquisition_failure_drives_finalize (cfg : Config) (env : Nat → IterEnv) (k : Nat)
    (s : MainState) (id : Nat)
    (hrun : s.runState = .scanner_run) (hres : s.result = ExitSuccess)
    (hsc : s.s_scanner = some id) (hfail : (env k).loopResult ≠ ExitSuccess) :
    ∃ s1, iteration cfg (env k) s = .proceed s1 ∧
      s1.trace = s.trace ++ [Event.rosSpinOnce, Event.loopOnce id (env k).loopResult] ∧
      s1.runState = .scanner_run ∧ s1.s_scanner = some id ∧
      iteration cfg (env (k + 1)) s1 = .proceed { s1 with runState := .scanner_finalize } ∧
      ∀ n, loopPasses cfg env (n + 1) (k + 1) s1 =
        .proceed { s1 with runState := .scanner_finalize } := by
  have hit : iteration cfg (env k) s = .proceed
      { s with result := (env k).loopResult,
               trace := s.trace ++ [Event.rosSpinOnce, Event.loopOnce id (env k).loopResult] } := by
    simp [iteration, hrun, hres, hsc]
  have hnext : ∀ e2, iteration cfg e2
      { s with result := (env k).loopResult,
               trace := s.trace ++ [Event.rosSpinOnce, Event.loopOnce id (env k).loopResult] } =
      .proceed
        { s with result := (env k).loopResult, runState := .scanner_finalize,
                 trace := s.trace ++ [Event.rosSpinOnce, Event.loopOnce id (env k).loopResult] } := by
    intro e2
    simp [iteration, hrun, hfail]
  refine ⟨_, hit, rfl, hrun, hsc, hnext _, ?_⟩
  intro n
  conv_lhs => unfold loopPasses
  simp only [hnext]
  exact loopPasses_finalize cfg env _ rfl n (k + 1 + 1)

/-- C7 at a concrete run: acquisition running on session 0, `loopOnce` returns
`ExitError`. -/
theorem acquisition_failure_drives_finalize_witness :
    ∃ s1, iteration tcpConfig (acquisitionFailureEnv 1) runningState = .proceed s1 ∧
      s1.trace = runningState.trace
        ++ [Event.rosSpinOnce, Event.loopOnce 0 (acquisitionFailureEnv 1).loopResult] ∧
      s1.runState = .scanner_run ∧ s1.s_scanner = some 0 ∧
      iteration tcpConfig (acquisitionFailureEnv (1 + 1)) s1 =
        .proceed { s1 with runState := .scanner_finalize } ∧
      ∀ n, loopPasses tcpConfig acquisitionFailureEnv (n + 1) (1 + 1) s1 =
        .proceed { s1 with runState := .scanner_finalize } :=
  acquisition_failure_drives_finalize tcpConfig acquisitionFailureEnv 1 runningState 0
    rfl rfl rfl (by decide)

/-! ## Teardown and release (C8, C9) -/

/-- A pass through the loop body leaves the parser pointer as it is. -/
theorem parser_kept_by_iteration (cfg : Config) (e : IterEnv) (s s' : MainState)
    (h : (iteration cfg e s).state? = some s') : s'.parser = s.parser := by
  have hdel : (deleteScanner s).parser = s.parser := by
    unfold deleteScanner
    cases s.s_scanner <;> rfl
  have hbase : (callInit cfg e s.nextId (newScanner cfg (deleteScanner s))).parser
      = s.parser := by
    cases hE : cfg.emulSensor <;> simp [callInit, hE, newScanner, hdel]
  cases hrun : s.runState with
  | scanner_init =>
    cases htcp : cfg.useTCP with
    | false =>
      simp [iteration, hrun, htcp, Outcome.state?] at h
      subst h
      exact hdel
    | true =>
      by_cases hres : e.initResult = ExitError ∨ e.initResult = ExitFatal
      · rw [iteration_init_failure cfg e s hrun htcp hres] at h
        simp [Outcome.state?] at h
        subst h
        exact hbase
      · have h1 : e.initResult ≠ ExitError := fun hh => hres (Or.inl hh)
        have h2 : e.initResult ≠ ExitFatal := fun hh => hres (Or.inr hh)
        rw [iteration_init_pass cfg e s hrun htcp h1 h2] at h
        cases hs : startServices e s.nextId
            (callInit cfg e s.nextId (newScanner cfg (deleteScanner s))) with
        | none => simp [hs, Outcome.state?] at h
        | some s1 =>
          simp [hs, Outcome.state?] at h
          subst h
          have hs1 : s1.parser = s.parser := by
            unfold startServices at hs
            cases hS : e.startServices.getD
                (callInit cfg e s.nextId (newScanner cfg (deleteScanner s))).start_services
              <;> simp [hS] at hs
            · subst hs
              exact hbase
            · cases hp : (callInit cfg e s.nextId (newScanner cfg (deleteScanner s))).parser with
              | none => simp [hp] at hs
              | some p =>
                simp [hp] at hs
                subst hs
                simp only
                rw [← hbase, hp]
          have hnr : (nextRunState cfg { s1 with isInitialized := true }).parser
              = s1.parser := by
            unfold nextRunState
            by_cases hr : e.initResult = ExitSuccess <;> cases hc : cfg.changeIP <;>
              simp
            all_goals split <;> rfl
          rw [hnr, hs1]
  | scanner_run =>
    unfold iteration at h
    simp only [hrun] at h
    by_cases hr : s.result = ExitSuccess
    · cases hsc : s.s_scanner with
      | none => simp [hr, hsc, Outcome.state?] at h
      | some id =>
        simp [hr, hsc, Outcome.state?] at h
        subst h
        rfl
    · simp [hr, Outcome.state?] at h
      subst h
      rfl
  | scanner_finalize =>
    simp [iteration, hrun, Outcome.state?] at h
    subst h
    rfl

/-- C8: the teardown after the main loop releases the services object if the
handle is non-null, then the session if `s_scanner` is non-null, then the parser if
its pointer is non-null, each once and in this order, and leaves the three handles
null; a second teardown changes nothing (it releases nothing). The teardown is what
`mainGenericLaser` does with the state in which the loop is left, and in such a
state the parser pointer is non-null, so the parser is released. -/
theorem teardown_order_and_idempotence (s : MainState) :
    (teardown s).trace =
      s.trace ++ s.services.toList.map (fun sv => Event.deleteServices sv.id)
        ++ s.s_scanner.toList.map Event.deleteSession
        ++ s.parser.toList.map (fun _ => Event.deleteParser) ∧
    (teardown s).services = none ∧ (teardown s).s_scanner = none ∧
    (teardown s).parser = none ∧
    teardown (teardown s) = teardown s ∧
    (∀ (cfg : Config) (env : Nat → IterEnv) (fuel k : Nat) (s0 : MainState),
      runFrom cfg env fuel k s0 =
        (mainLoop cfg env fuel k s0).map (fun o =>
          match o with
          | .proceed s' => .returned s'.result (teardown s')
          | o => o)) ∧
    ∀ (cfg : Config) (env : Nat → IterEnv) (fuel : Nat) (param : ScannerBasicParam)
      (s' : MainState),
      mainLoop cfg env fuel 0 (initialState param) = some (.proceed s') →
        s'.parser = some param := by
  refine ⟨teardown_trace s, ?_, ?_, ?_, ?_, ?_, ?_⟩
  · cases hsv : s.services <;> cases hsc : s.s_scanner <;> cases hp : s.parser <;>
      simp [teardown, hsv, hsc, hp]
  · cases hsv : s.services <;> cases hsc : s.s_scanner <;> cases hp : s.parser <;>
      simp [teardown, hsv, hsc, hp]
  · cases hsv : s.services <;> cases hsc : s.s_scanner <;> cases hp : s.parser <;>
      simp [teardown, hsv, hsc, hp]
  · cases hsv : s.services <;> cases hsc : s.s_scanner <;> cases hp : s.parser <;>
      simp [teardown, hsv, hsc, hp]
  · intro cfg env fuel k s0
    unfold runFrom
    cases hm : mainLoop cfg env fuel k s0 with
    | none => rfl
    | some o => cases o <;> rfl
  · intro cfg env fuel param s' h
    exact mainLoop_preserves (fun t => t.parser = some param) cfg env
      (fun e t t' hP hit => (parser_kept_by_iteration cfg e t t' hit).trans hP)
      fuel 0 (initialState param) (.proceed s') s' rfl h rfl

/-- C8 at a concrete run: the loop is left while acquisition is running on
session 0; the teardown releases session 0 and the parser. -/
theorem teardown_order_and_idempotence_witness :
    (teardown runningState).trace =
      runningState.trace
        ++ runningState.services.toList.map (fun sv => Event.deleteServices sv.id)
        ++ runningState.s_scanner.toList.map Event.deleteSession
        ++ runningState.parser.toList.map (fun _ => Event.deleteParser) ∧
    teardown (teardown runningState) = teardown runningState ∧
    runningState.parser = some oneLayerParam :=
  ⟨(teardown_order_and_idempotence runningState).1,
   (teardown_order_and_idempotence runningState).2.2.2.2.1,
   (teardown_order_and_idempotence runningState).2.2.2.2.2.2 tcpConfig
      (scriptEnv [answers ExitSuccess none ExitSuccess, stopped]) 2 oneLayerParam
      runningState (by decide)⟩

/-- C9 (evaluation at the failing input): when the first `init` returns
`ExitFatal` (or `ExitError`), `mainGenericLaser` returns with session 0 constructed
and not released and the parser not released; and on the normal exit after a
retried `init` with `start_services` set, the services object built in the first
pass is never released. -/
theorem init_failure_return_releases_nothing :
    runFrom tcpConfig fatalThenSuccessEnv 3 0 (initialState oneLayerParam) =
      some (.returned ExitFatal (afterInitFailure ExitFatal)) ∧
    runFrom tcpConfig errorThenSuccessEnv 3 0 (initialState oneLayerParam) =
      some (.returned ExitError (afterInitFailure ExitError)) ∧
    liveSessions (afterInitFailure ExitFatal).trace = [0] ∧
    (afterInitFailure ExitFatal).parser = some oneLayerParam ∧
    Event.deleteParser ∉ (afterInitFailure ExitFatal).trace ∧
    runFrom tcpConfig servicesRetryStopEnv 3 0 (initialState oneLayerParam) =
      some (.returned ExitSuccess (teardown afterServicesRetry)) ∧
    liveServices (teardown afterServicesRetry).trace = [(1, 0)] := by
  decide

/-- The sessions alive are the one `s_scanner` points at, or none: this holds
before the first pass and every pass through the loop body keeps it. -/
theorem iteration_session_owner (cfg : Config) (e : IterEnv) (s s' : MainState)
    (hP : liveSessions s.trace = s.s_scanner.toList ∨ liveSessions s.trace = [])
    (h : (iteration cfg e s).state? = some s') :
    liveSessions s'.trace = s'.s_scanner.toList ∨ liveSessions s'.trace = [] := by
  have hdel : liveSessions (deleteScanner s).trace = [] := by
    rw [deleteScanner_trace, liveSessions_append]
    rcases hP with hP | hP <;> rw [hP] <;> cases s.s_scanner <;> simp [sessionStep]
  have hbase : liveSessions (callInit cfg e s.nextId (newScanner cfg (deleteScanner s))).trace
        = [s.nextId] ∧
      (callInit cfg e s.nextId (newScanner cfg (deleteScanner s))).s_scanner
        = some s.nextId := by
    have hnew : liveSessions (newScanner cfg (deleteScanner s)).trace = [s.nextId] := by
      simp only [newScanner, liveSessions_append, hdel, deleteScanner_nextId]
      simp [sessionStep]
    cases hE : cfg.emulSensor
    · constructor
      · have : (callInit cfg e s.nextId (newScanner cfg (deleteScanner s))).trace =
            (newScanner cfg (deleteScanner s)).trace ++ [Event.init s.nextId e.initResult] := by
          simp [callInit, hE]
        rw [this, liveSessions_append, hnew]
        simp [sessionStep]
      · simp [callInit, hE, newScanner, deleteScanner_nextId]
    · constructor
      · have : (callInit cfg e s.nextId (newScanner cfg (deleteScanner s))).trace =
            (newScanner cfg (deleteScanner s)).trace ++
              [Event.setEmulSensor s.nextId, Event.init s.nextId e.initResult] := by
          simp [callInit, hE]
        rw [this, liveSessions_append, hnew]
        simp [sessionStep]
      · simp [callInit, hE, newScanner, deleteScanner_nextId]
  cases hrun : s.runState with
  | scanner_init =>
    cases htcp : cfg.useTCP with
    | false =>
      simp [iteration, hrun, htcp, Outcome.state?] at h
      subst h
      exact Or.inr hdel
    | true =>
      by_cases hres : e.initResult = ExitError ∨ e.initResult = ExitFatal
      · rw [iteration_init_failure cfg e s hrun htcp hres] at h
        simp [Outcome.state?] at h
        subst h
        left
        rw [hbase.1, hbase.2]
        rfl
      · have h1 : e.initResult ≠ ExitError := fun hh => hres (Or.inl hh)
        have h2 : e.initResult ≠ ExitFatal := fun hh => hres (Or.inr hh)
        rw [iteration_init_pass cfg e s hrun htcp h1 h2] at h
        cases hs : startServices e s.nextId
            (callInit cfg e s.nextId (newScanner cfg (deleteScanner s))) with
        | none => simp [hs, Outcome.state?] at h
        | some s1 =>
          simp [hs, Outcome.state?] at h
          subst h
          left
          have hs1 : liveSessions s1.trace = [s.nextId] ∧ s1.s_scanner = some s.nextId := by
            unfold startServices at hs
            cases hS : e.startServices.getD
                (callInit cfg e s.nextId (newScanner cfg (deleteScanner s))).start_services
              <;> simp [hS] at hs
            · subst hs
              exact hbase
            · cases hp : (callInit cfg e s.nextId (newScanner cfg (deleteScanner s))).parser with
              | none => simp [hp] at hs
              | some p =>
                simp [hp] at hs
                subst hs
                refine ⟨?_, hbase.2⟩
                simp only [liveSessions_append, hbase.1]
                simp [sessionStep]
          have hsc : (nextRunState cfg { s1 with isInitialized := true }).s_scanner
              = s1.s_scanner := by
            unfold nextRunState
            by_cases hr : e.initResult = ExitSuccess <;> cases hc : cfg.changeIP <;>
              simp
            all_goals split <;> rfl
          rw [nextRunState_trace, hsc, hs1.1, hs1.2]
          rfl
  | scanner_run =>
    unfold iteration at h
    simp only [hrun] at h
    by_cases hr : s.result = ExitSuccess
    · cases hsc : s.s_scanner with
      | none => simp [hr, hsc, Outcome.state?] at h
      | some id =>
        simp [hr, hsc, Outcome.state?] at h
        subst h
        simp only [liveSessions_append]
        simp only [List.foldl, sessionStep]
        rw [hsc] at hP
        exact hP
    · simp [hr, Outcome.state?] at h
      subst h
      exact hP
  | scanner_finalize =>
    simp [iteration, hrun, Outcome.state?] at h
    subst h
    exact hP

/-- At most one session is alive in every state the main loop reaches from the
initial state, whatever the answers of the collaborators are. -/
theorem live_sessions_at_most_one (cfg : Config) (env : Nat → IterEnv)
    (param : ScannerBasicParam) (fuel : Nat) (o : Outcome) (s : MainState)
    (h : mainLoop cfg env fuel 0 (initialState param) = some o) (hs : o.state? = some s) :
    (liveSessions s.trace).length ≤ 1 := by
  have hinv := mainLoop_preserves
    (fun s => liveSessions s.trace = s.s_scanner.toList ∨ liveSessions s.trace = [])
    cfg env (fun e s s' hP hit => iteration_session_owner cfg e s s' hP hit)
    fuel 0 (initialState param) o s (Or.inr rfl) h hs
  rcases hinv with hinv | hinv
  · rw [hinv]
    cases s.s_scanner <;> simp
  · rw [hinv]
    simp

/-- Outside the three exit codes: `start_services` is set, the first `init` returns
the code 3 and the second succeeds. The first pass builds the services object 1
against session 0; the second pass releases session 0 and builds the services
object 3 against session 2 without releasing object 1. After two passes one
session is alive (2) and two services objects are alive, one of them built against
the released session 0. -/
theorem services_handle_leaks_on_retry :
    loopPasses tcpConfig servicesRetryEnv 2 0 (initialState oneLayerParam) =
      .proceed afterServicesRetry ∧
    liveSessions afterServicesRetry.trace = [2] ∧
    liveServices afterServicesRetry.trace = [(1, 0), (3, 2)] ∧
    afterServicesRetry.services = some { id := 3, session := 2, binary := true } := by
  decide

/-! ## Splitting at `:=` (C12) -/

theorem isPrefixOf_assign (s : List Char) :
    [':', '='].isPrefixOf s = true ↔ ∃ post, s = ':' :: '=' :: post := by
  rw [List.isPrefixOf_iff_prefix]
  constructor
  · rintro ⟨t, ht⟩
    exact ⟨t, by simpa using ht.symm⟩
  · rintro ⟨post, hpost⟩
    exact ⟨post, by simpa using hpost.symm⟩

/-- What `find` returns for the pattern `:=`: `npos` only when there is no
occurrence, else a position at which the pattern stands, with room for it, and
before which there is no occurrence. -/
theorem find_assign_spec : ∀ s : List Char,
    match find [':', '='] s with
    | none => ¬ ContainsAssign s
    | some pos => pos + 2 ≤ s.length ∧ s = s.take pos ++ ':' :: '=' :: s.drop (pos + 2) ∧
        ¬ ContainsAssign (s.take pos)
  | [] => by
    simp [find, ContainsAssign]
  | c :: cs => by
    have ih := find_assign_spec cs
    unfold find
    by_cases hpre : [':', '='].isPrefixOf (c :: cs) = true
    · simp only [hpre, if_true]
      obtain ⟨post, hpost⟩ := (isPrefixOf_assign _).1 hpre
      refine ⟨?_, ?_, ?_⟩
      · rw [hpost]; simp
      · rw [hpost]; simp
      · rintro ⟨pre, post, h⟩
        simp at h
    · simp only [hpre]
      cases hf : find [':', '='] cs with
      | none =>
        rw [hf] at ih
        simp only [Option.map_none', Bool.false_eq_true, if_false]
        rintro ⟨pre, post, h⟩
        cases pre with
        | nil => exact hpre ((isPrefixOf_assign _).2 ⟨post, by simpa using h⟩)
        | cons d pre' =>
          simp only [List.cons_append, List.cons.injEq] at h
          exact ih ⟨pre', post, h.2⟩
      | some p =>
        rw [hf] at ih
        simp only [Option.map_some', Bool.false_eq_true, if_false]
        obtain ⟨hlen, hsplit, hno⟩ := ih
        refine ⟨by simp; omega, ?_, ?_⟩
        · simp only [List.take_succ_cons, List.cons_append, List.drop_succ_cons, List.cons.injEq,
            true_and]
          exact hsplit
        · rintro ⟨pre, post, h⟩
          cases pre with
          | nil =>
            apply hpre
            apply (isPrefixOf_assign _).2
            simp only [List.take_succ_cons, List.nil_append, List.cons.injEq] at h
            have hcs : cs = '=' :: (post ++ cs.drop p) := by
              conv_lhs => rw [← List.take_append_drop p cs, h.2]
              simp
            refine ⟨post ++ cs.drop p, ?_⟩
            rw [h.1]
            exact congrArg (List.cons ':') hcs
          | cons d pre' =>
            simp only [List.take_succ_cons, List.cons_append, List.cons.injEq] at h
            exact hno ⟨pre', post, h.2⟩

theorem getTagVal_of_find_none (s : String) (h : find [':', '='] s.data = none) :
    getTagVal s = { ret := false, tag := "", val := "" } := by
  have h' : find ":=".data s.data = none := h
  simp [getTagVal, h']

theorem getTagVal_of_find_some (s : String) (pos : Nat)
    (h : find [':', '='] s.data = some pos) :
    getTagVal s = { ret := true, tag := String.mk (s.data.take pos),
                    val := String.mk (s.data.drop (pos + 2)) } := by
  have h' : find ":=".data s.data = some pos := h
  simp [getTagVal, h', substr]

/-- C12: for every string `s`, `getTagVal` returns true exactly when `s` contains
`:=`; when it returns true, `tag ++ ":=" ++ val` is `s`, `tag` contains no `:=`
(the split is at the first occurrence), and the two `substr` calls are within the
string; when it returns false, `tag` and `val` are both empty. -/
theorem getTagVal_splits_at_first (s : String) :
    ((getTagVal s).ret = true ↔ ContainsAssign s.data) ∧
    ((getTagVal s).ret = true →
      (getTagVal s).tag ++ ":=" ++ (getTagVal s).val = s ∧
      ¬ ContainsAssign (getTagVal s).tag.data ∧
      ∃ pos, find ":=".data s.data = some pos ∧ pos + 2 ≤ s.data.length) ∧
    ((getTagVal s).ret = false → (getTagVal s).tag = "" ∧ (getTagVal s).val = "") := by
  have hspec := find_assign_spec s.data
  cases hf : find [':', '='] s.data with
  | none =>
    rw [hf] at hspec
    rw [getTagVal_of_find_none s hf]
    simp only [Bool.false_eq_true, false_iff, false_implies, implies_true, and_self, and_true,
      true_and]
    exact hspec
  | some pos =>
    rw [hf] at hspec
    obtain ⟨hlen, hsplit, hno⟩ := hspec
    rw [getTagVal_of_find_some s pos hf]
    refine ⟨⟨fun _ => ?_, fun _ => rfl⟩, fun _ => ⟨?_, hno, pos, rfl, hlen⟩, ?_⟩
    · exact ⟨s.data.take pos, s.data.drop (pos + 2), hsplit⟩
    · apply String.ext
      simp only [String.data_append]
      show List.take pos s.data ++ [':', '='] ++ List.drop (pos + 2) s.data = s.data
      conv_rhs => rw [hsplit]
      simp
    · intro h
      simp at h

/-- C12 at concrete strings: a token with two `:=` is split at the first one; a
string without `:=` gives empty outputs. -/
theorem getTagVal_splits_at_first_witness :
    getTagVal "hostname:=a:=b" = { ret := true, tag := "hostname", val := "a:=b" } ∧
    "hostname" ++ ":=" ++ "a:=b" = "hostname:=a:=b" ∧
    getTagVal "scan.launch" = { ret := false, tag := "", val := "" } ∧
    ((getTagVal "hostname:=a:=b").tag ++ ":=" ++ (getTagVal "hostname:=a:=b").val
        = "hostname:=a:=b" ∧
      ¬ ContainsAssign (getTagVal "hostname:=a:=b").tag.data ∧
      ∃ pos, find ":=".data "hostname:=a:=b".data = some pos ∧
        pos + 2 ≤ "hostname:=a:=b".data.length) :=
  ⟨by decide, by decide, by decide,
   (getTagVal_splits_at_first "hostname:=a:=b").2.1 (by decide)⟩

/-! ## The signal handler (C15, C16) -/

/-- C15: in a state with a session at hand (`s_scanner` non-null, pointing at
`id`) and `isInitialized = true`, `rosSignalHandler` calls `stopScanData` on the
session and then `rosShutdown`, sets the run state to `scanner_finalize` and
changes nothing else: `s_scanner` and `isInitialized` are as before and nothing is
released. A second invocation repeats the two calls and leaves every variable as
the first invocation left it. -/
theorem signal_with_initialized_session (s : MainState) (id : Nat)
    (hsc : s.s_scanner = some id) (hinit : s.isInitialized = true) :
    rosSignalHandler s =
      { s with runState := .scanner_finalize,
               trace := s.trace ++ [Event.stopScanData id, Event.rosShutdown] } ∧
    (rosSignalHandler s).s_scanner = s.s_scanner ∧
    (rosSignalHandler s).isInitialized = s.isInitialized ∧
    liveSessions (rosSignalHandler s).trace = liveSessions s.trace ∧
    liveServices (rosSignalHandler s).trace = liveServices s.trace ∧
    rosSignalHandler (rosSignalHandler s) =
      { rosSignalHandler s with
          trace := (rosSignalHandler s).trace ++ [Event.stopScanData id, Event.rosShutdown] } ∧
    { rosSignalHandler (rosSignalHandler s) with trace := (rosSignalHandler s).trace } =
      rosSignalHandler s := by
  have h1 : rosSignalHandler s =
      { s with runState := .scanner_finalize,
               trace := s.trace ++ [Event.stopScanData id, Event.rosShutdown] } := by
    simp [rosSignalHandler, hsc, hinit]
  have h2 : rosSignalHandler (rosSignalHandler s) =
      { rosSignalHandler s with
          trace := (rosSignalHandler s).trace ++ [Event.stopScanData id, Event.rosShutdown] } := by
    rw [h1]
    simp [rosSignalHandler, hsc, hinit]
  refine ⟨h1, ?_, ?_, ?_, ?_, h2, ?_⟩
  · rw [h1]
  · rw [h1]
  · rw [h1]
    simp [liveSessions, List.foldl_append, sessionStep]
  · rw [h1]
    simp [liveServices, List.foldl_append, servicesStep]
  · rw [h2]

/-- C15 at a concrete state: acquisition running on session 0. -/
theorem signal_with_initialized_session_witness :
    rosSignalHandler runningState =
      { runningState with
          runState := .scanner_finalize,
          trace := runningState.trace ++ [Event.stopScanData 0, Event.rosShutdown] } ∧
    { rosSignalHandler (rosSignalHandler runningState) with
        trace := (rosSignalHandler runningState).trace } = rosSignalHandler runningState :=
  ⟨(signal_with_initialized_session runningState 0 rfl rfl).1,
   (signal_with_initialized_session runningState 0 rfl rfl).2.2.2.2.2.2⟩

/-- C16 (amended): `rosSignalHandler` always calls `rosShutdown`; it sets the run
state to `scanner_finalize` when `s_scanner` is non-null and leaves the run state
as it is when `s_scanner` is null. -/
theorem signal_run_state (s : MainState) :
    (rosSignalHandler s).runState =
      (if s.s_scanner.isSome then NodeRunState.scanner_finalize else s.runState) ∧
    ∃ evs, (rosSignalHandler s).trace = s.trace ++ evs ++ [Event.rosShutdown] := by
  cases hsc : s.s_scanner with
  | none =>
    refine ⟨by simp [rosSignalHandler, hsc], [], by simp [rosSignalHandler, hsc]⟩
  | some id =>
    cases hinit : s.isInitialized with
    | false =>
      refine ⟨by simp [rosSignalHandler, hsc, hinit], [], by simp [rosSignalHandler, hsc, hinit]⟩
    | true =>
      refine ⟨by simp [rosSignalHandler, hsc, hinit], [Event.stopScanData id],
        by simp [rosSignalHandler, hsc, hinit]⟩

/-- C16 (counterexample): the handler invoked before any session has been
constructed (initial state, `s_scanner` null) returns with the run state still
`scanner_init`; only `rosShutdown` has been called. -/
theorem signal_without_session_keeps_run_state :
    (initialState oneLayerParam).s_scanner = none ∧
    (rosSignalHandler (initialState oneLayerParam)).runState = .scanner_init ∧
    (rosSignalHandler (initialState oneLayerParam)).runState ≠ .scanner_finalize ∧
    (rosSignalHandler (initialState oneLayerParam)).trace = [Event.rosShutdown] := by
  decide

/-! ## Write-back of the dialect (C17) -/

/-- C17 (evaluation at the failing input): ASCII is requested
(`use_binary_protocol = false`) for a device profile with five layers. The dialect
byte is 'B', the entry `use_binary_protocol` still holds `false`, and the value
`true` has been written to the key `sopas_protocol_type`. -/
theorem dialect_written_to_other_key :
    (selectDialect asciiRegistry fiveLayerParam false).colaDialectId = 'B' ∧
    (selectDialect asciiRegistry fiveLayerParam false).reg "use_binary_protocol" =
      some (.bool false) ∧
    (selectDialect asciiRegistry fiveLayerParam false).reg "sopas_protocol_type" =
      some (.bool true) ∧
    asciiRegistry "sopas_protocol_type" = none ∧
    (selectDialect asciiRegistry fiveLayerParam false).warned = true := by
  decide

/-! ## Safety of the run state (C18) -/

theorem lastInit_append (tr evs : List Event) :
    lastInit (tr ++ evs) = evs.foldl (fun acc ev =>
      match ev with
      | .init id r => some (id, r)
      | _ => acc) (lastInit tr) := by
  simp [lastInit, List.foldl_append]

/-- A property of states that every pass through the loop body preserves holds
after any number of passes. -/
theorem loopPasses_preserves (P : MainState → Prop) (cfg : Config) (env : Nat → IterEnv)
    (hstep : ∀ e s s', P s → (iteration cfg e s).state? = some s' → P s') :
    ∀ (n k : Nat) (s s' : MainState),
      P s → (loopPasses cfg env n k s).state? = some s' → P s' := by
  intro n
  induction n with
  | zero =>
    intro k s s' hP h
    simp [loopPasses, Outcome.state?] at h
    subst h
    exact hP
  | succ m ih =>
    intro k s s' hP h
    unfold loopPasses at h
    cases hit : iteration cfg (env k) s with
    | proceed s1 =>
      rw [hit] at h
      exact ih (k + 1) s1 s' (hstep _ _ _ hP (by rw [hit]; rfl)) h
    | returned c s1 =>
      rw [hit] at h
      exact hstep (env k) s s' hP (by rw [hit]; exact h)
    | exited c s1 =>
      rw [hit] at h
      exact hstep (env k) s s' hP (by rw [hit]; exact h)
    | fault =>
      rw [hit] at h
      simp [Outcome.state?] at h

/-- The safety property of the run state, with the parser at hand: every pass
through the loop body keeps it. -/
theorem iteration_run_safe (cfg : Config) (e : IterEnv) (s s' : MainState)
    (hP : s.parser.isSome = true ∧ (s.runState = .scanner_run →
      ∃ id, s.s_scanner = some id ∧ s.isInitialized = true ∧
        lastInit s.trace = some (id, ExitSuccess)))
    (h : (iteration cfg e s).state? = some s') :
    s'.parser.isSome = true ∧ (s'.runState = .scanner_run →
      ∃ id, s'.s_scanner = some id ∧ s'.isInitialized = true ∧
        lastInit s'.trace = some (id, ExitSuccess)) := by
  obtain ⟨hpar, hinv⟩ := hP
  refine ⟨by rw [parser_kept_by_iteration cfg e s s' h]; exact hpar, ?_⟩
  obtain ⟨p, hp⟩ := Option.isSome_iff_exists.1 hpar
  cases hrun : s.runState with
  | scanner_init =>
    cases htcp : cfg.useTCP with
    | false =>
      simp [iteration, hrun, htcp, Outcome.state?] at h
      subst h
      intro hr
      have : (deleteScanner s).runState = s.runState := by
        unfold deleteScanner
        cases s.s_scanner <;> rfl
      rw [this, hrun] at hr
      exact NodeRunState.noConfusion hr
    | true =>
      by_cases hres : e.initResult = ExitError ∨ e.initResult = ExitFatal
      · obtain ⟨s1, hit, _, hrs, _⟩ := init_failure_shape cfg e s hrun htcp hres
        rw [hit] at h
        simp [Outcome.state?] at h
        subst h
        intro hr
        rw [hrs, hrun] at hr
        exact NodeRunState.noConfusion hr
      · have h1 : e.initResult ≠ ExitError := fun hh => hres (Or.inl hh)
        have h2 : e.initResult ≠ ExitFatal := fun hh => hres (Or.inr hh)
        obtain ⟨s1, hit, hsc, _, hrs, hini, _, _, htr⟩ :=
          init_pass_shape cfg e s p hrun htcp hp h1 h2
        rw [hit] at h
        simp [Outcome.state?] at h
        subst h
        intro hr
        by_cases h0 : e.initResult = ExitSuccess
        · refine ⟨s.nextId, hsc, hini, ?_⟩
          rw [htr, lastInit_append, h0]
          cases cfg.emulSensor <;> cases e.startServices.getD s.start_services <;>
            simp [initTail]
        · rw [hrs, if_neg h0] at hr
          exact NodeRunState.noConfusion hr
  | scanner_run =>
    obtain ⟨id, hsc, hini, hlast⟩ := hinv hrun
    unfold iteration at h
    simp only [hrun] at h
    by_cases hr : s.result = ExitSuccess
    · simp [hr, hsc, Outcome.state?] at h
      subst h
      intro _
      refine ⟨id, rfl, hini, ?_⟩
      rw [lastInit_append]
      simpa using hlast
    · simp [hr, Outcome.state?] at h
      subst h
      intro hrun'
      exact NodeRunState.noConfusion hrun'
  | scanner_finalize =>
    simp [iteration, hrun, Outcome.state?] at h
    subst h
    intro hrun'
    rw [hrun] at hrun'
    exact NodeRunState.noConfusion hrun'

/-- With the parser at hand and the safety property of the run state, a pass
through the loop body dereferences no null pointer. -/
theorem iteration_no_fault (cfg : Config) (e : IterEnv) (s : MainState)
    (hP : s.parser.isSome = true ∧ (s.runState = .scanner_run →
      ∃ id, s.s_scanner = some id ∧ s.isInitialized = true ∧
        lastInit s.trace = some (id, ExitSuccess))) :
    iteration cfg e s ≠ .fault := by
  obtain ⟨hpar, hinv⟩ := hP
  obtain ⟨p, hp⟩ := Option.isSome_iff_exists.1 hpar
  cases hrun : s.runState with
  | scanner_init =>
    cases htcp : cfg.useTCP with
    | false => simp [iteration, hrun, htcp]
    | true =>
      by_cases hres : e.initResult = ExitError ∨ e.initResult = ExitFatal
      · rw [iteration_init_failure cfg e s hrun htcp hres]
        simp
      · have h1 : e.initResult ≠ ExitError := fun hh => hres (Or.inl hh)
        have h2 : e.initResult ≠ ExitFatal := fun hh => hres (Or.inr hh)
        obtain ⟨s1, hit, _⟩ := init_pass_shape cfg e s p hrun htcp hp h1 h2
        rw [hit]
        simp
  | scanner_run =>
    obtain ⟨id, hsc, _, _⟩ := hinv hrun
    unfold iteration
    simp only [hrun]
    by_cases hr : s.result = ExitSuccess <;> simp [hr, hsc]
  | scanner_finalize => simp [iteration, hrun]

theorem loopPasses_no_fault (cfg : Config) (env : Nat → IterEnv) :
    ∀ (n k : Nat) (s : MainState),
      (s.parser.isSome = true ∧ (s.runState = .scanner_run →
        ∃ id, s.s_scanner = some id ∧ s.isInitialized = true ∧
          lastInit s.trace = some (id, ExitSuccess))) →
      loopPasses cfg env n k s ≠ .fault := by
  intro n
  induction n with
  | zero => intro k s _; simp [loopPasses]
  | succ m ih =>
    intro k s hP
    unfold loopPasses
    cases hit : iteration cfg (env k) s with
    | proceed s1 =>
      exact ih (k + 1) s1 (iteration_run_safe cfg (env k) s s1 hP (by rw [hit]; rfl))
    | returned c s1 => simp
    | exited c s1 => simp
    | fault => exact absurd hit (iteration_no_fault cfg (env k) s hP)

/-- C18: from the initial state (run state `scanner_init`, no session), whatever
the answers of the collaborators are, no number of passes of the main loop
dereferences a null pointer, and in every state reached whose run state is
`scanner_run` the pointer `s_scanner` is non-null, `isInitialized` is true and the
most recent call of `init` was on that session and returned `ExitSuccess`; the
pass that calls `loopOnce` calls it on that session. -/
theorem run_state_safety (cfg : Config) (env : Nat → IterEnv) (param : ScannerBasicParam) :
    (∀ n, loopPasses cfg env n 0 (initialState param) ≠ .fault) ∧
    ∀ (n : Nat) (s : MainState),
      (loopPasses cfg env n 0 (initialState param)).state? = some s →
      s.runState = .scanner_run →
      ∃ id, s.s_scanner = some id ∧ s.isInitialized = true ∧
        lastInit s.trace = some (id, ExitSuccess) ∧
        ∀ e : IterEnv, s.result = ExitSuccess →
          iteration cfg e s = .proceed
            { s with result := e.loopResult,
                     trace := s.trace ++ [Event.rosSpinOnce, Event.loopOnce id e.loopResult] } := by
  have hinit : (initialState param).parser.isSome = true ∧
      ((initialState param).runState = .scanner_run →
        ∃ id, (initialState param).s_scanner = some id ∧
          (initialState param).isInitialized = true ∧
          lastInit (initialState param).trace = some (id, ExitSuccess)) := by
    refine ⟨rfl, ?_⟩
    intro h
    simp [initialState] at h
  refine ⟨fun n => loopPasses_no_fault cfg env n 0 _ hinit, ?_⟩
  intro n s hreach hrun
  have hsafe := loopPasses_preserves
    (fun t => t.parser.isSome = true ∧ (t.runState = .scanner_run →
      ∃ id, t.s_scanner = some id ∧ t.isInitialized = true ∧
        lastInit t.trace = some (id, ExitSuccess)))
    cfg env (fun e t t' hP hit => iteration_run_safe cfg e t t' hP hit)
    n 0 (initialState param) s hinit hreach
  obtain ⟨id, hsc, hini, hlast⟩ := hsafe.2 hrun
  refine ⟨id, hsc, hini, hlast, ?_⟩
  intro e hres
  simp [iteration, hrun, hres, hsc]

/-- C18 at a concrete run: the first pass of `acquisitionFailureEnv` (init succeeds)
ends in `scanner_run` on the initialized session 0. -/
theorem run_state_safety_witness :
    loopPasses tcpConfig acquisitionFailureEnv 1 0 (initialState oneLayerParam) ≠ .fault ∧
    ∃ id, runningState.s_scanner = some id ∧ runningState.isInitialized = true ∧
      lastInit runningState.trace = some (id, ExitSuccess) ∧
      ∀ e : IterEnv, runningState.result = ExitSuccess →
        iteration tcpConfig e runningState = .proceed
          { runningState with
              result := e.loopResult,
              trace := runningState.trace ++ [Event.rosSpinOnce, Event.loopOnce id e.loopResult] } :=
  ⟨(run_state_safety tcpConfig acquisitionFailureEnv oneLayerParam).1 1,
   (run_state_safety tcpConfig acquisitionFailureEnv oneLayerParam).2 1 runningState
      (by decide) rfl⟩

/-- Outside the three exit codes: the first `init` returns the code 3. The pass goes
on with `isInitialized = true` although the most recent `init`, on the session
alive, returned 3; when the retry then fails with `ExitError`, `mainGenericLaser`
returns with `isInitialized` still true, the session alive being session 1, whose
`init` returned `ExitError`. -/
theorem initialized_flag_set_after_failed_init :
    iteration tcpConfig (otherThenSuccessEnv 0) (initialState oneLayerParam) =
      .proceed afterFailedInit ∧
    afterFailedInit.isInitialized = true ∧
    liveSessions afterFailedInit.trace = [0] ∧
    lastInit afterFailedInit.trace = some (0, 3) ∧
    runFrom tcpConfig otherThenErrorEnv 5 0 (initialState oneLayerParam) =
      some (.returned ExitError afterRetryError) ∧
    afterRetryError.isInitialized = true ∧
    liveSessions afterRetryError.trace = [1] ∧
    lastInit afterRetryError.trace = some (1, ExitError) := by
  decide

/-! ## Coercion of launch assignments (C14) -/

theorem rosSetParam_same (reg : Registry) (key : String) (v : ParamValue) :
    rosSetParam reg key v key = some v := by
  simp [rosSetParam]

theorem rosSetParam_other (reg : Registry) (key k : String) (v : ParamValue) (h : k ≠ key) :
    rosSetParam reg key v k = reg k := by
  simp [rosSetParam, h]

theorem string_data_eq_nil (s : String) : s.data = [] ↔ s = "" := by
  constructor
  · intro h
    exact String.ext h
  · intro h
    rw [h]

/-- C14 (amended): for every launch assignment (tag, type, raw): if the type is
`bool` and raw is not empty, the registry receives for tag a boolean that is true
exactly when the first character of raw is '1', 't' or 'T'; if the type is `bool`
and raw is empty, or the type is none of `bool`, `int`, `float`, `double`, the
registry receives raw unchanged as a string. -/
theorem launch_assignment_coercion (c : Collaborators) (reg : Registry)
    (a : LaunchAssignment) :
    (a.type = "bool" → a.val ≠ "" →
      ∃ b : Bool, setLaunchParam c reg a = some (rosSetParam reg a.tag (.bool b)) ∧
        (rosSetParam reg a.tag (.bool b)) a.tag = some (.bool b) ∧
        (b = true ↔ ∃ ch rest, a.val.data = ch :: rest ∧ (ch = '1' ∨ ch = 't' ∨ ch = 'T'))) ∧
    (a.type = "bool" → a.val = "" →
      setLaunchParam c reg a = some (rosSetParam reg a.tag (.str a.val)) ∧
      (rosSetParam reg a.tag (.str a.val)) a.tag = some (.str a.val)) ∧
    (a.type ≠ "bool" → a.type ≠ "int" → a.type ≠ "float" → a.type ≠ "double" →
      setLaunchParam c reg a = some (rosSetParam reg a.tag (.str a.val)) ∧
      (rosSetParam reg a.tag (.str a.val)) a.tag = some (.str a.val)) := by
  refine ⟨?_, ?_, ?_⟩
  · intro ht hv
    have hne : a.val.data ≠ [] := fun h => hv ((string_data_eq_nil _).1 h)
    refine ⟨(a.val.data.head? == some '1' || a.val.data.head? == some 't'
        || a.val.data.head? == some 'T'), by simp [setLaunchParam, ht, hne],
      rosSetParam_same _ _ _, ?_⟩
    cases hd : a.val.data with
    | nil => exact absurd hd hne
    | cons ch rest =>
      simp only [List.head?_cons, Bool.or_eq_true, beq_iff_eq, Option.some.injEq,
        List.cons.injEq]
      constructor
      · intro h
        exact ⟨ch, rest, ⟨rfl, rfl⟩, by
          rcases h with (h | h) | h
          · exact Or.inl h
          · exact Or.inr (Or.inl h)
          · exact Or.inr (Or.inr h)⟩
      · rintro ⟨ch', rest', ⟨h1, _⟩, h⟩
        subst h1
        rcases h with h | h | h
        · exact Or.inl (Or.inl h)
        · exact Or.inl (Or.inr h)
        · exact Or.inr h
  · intro ht hv
    have he : a.val.data = [] := (string_data_eq_nil _).2 hv
    refine ⟨?_, rosSetParam_same _ _ _⟩
    simp [setLaunchParam, ht, he]
  · intro h1 h2 h3 h4
    refine ⟨?_, rosSetParam_same _ _ _⟩
    simp [setLaunchParam, h1, h2, h3, h4]

/-- C14 (amended) at concrete assignments: a boolean `Tx` is stored as `true`; an
assignment of type `string` is stored as the text. -/
theorem launch_assignment_coercion_witness :
    (∃ b : Bool,
      setLaunchParam exampleCollaborators emptyRegistry
          { tag := "flag", type := "bool", val := "Tx" } =
        some (rosSetParam emptyRegistry "flag" (.bool b)) ∧
      (rosSetParam emptyRegistry "flag" (.bool b)) "flag" = some (.bool b) ∧
      (b = true ↔ ∃ ch rest, "Tx".data = ch :: rest ∧ (ch = '1' ∨ ch = 't' ∨ ch = 'T'))) ∧
    (setLaunchParam exampleCollaborators emptyRegistry
        { tag := "frame_id", type := "string", val := "cloud" } =
      some (rosSetParam emptyRegistry "frame_id" (.str "cloud")) ∧
     (rosSetParam emptyRegistry "frame_id" (.str "cloud")) "frame_id" = some (.str "cloud")) :=
  ⟨(launch_assignment_coercion exampleCollaborators emptyRegistry
      { tag := "flag", type := "bool", val := "Tx" }).1 rfl (by decide),
   (launch_assignment_coercion exampleCollaborators emptyRegistry
      { tag := "frame_id", type := "string", val := "cloud" }).2.2
      (by decide) (by decide) (by decide) (by decide)⟩

/-- C14 (counterexample): the assignment of type `bool` with an empty raw value:
the registry receives the empty string, not the boolean `false`. -/
theorem empty_bool_stored_as_string :
    (setLaunchParam exampleCollaborators emptyRegistry
        { tag := "empty_flag", type := "bool", val := "" }).map (fun reg => reg "empty_flag") =
      some (some (.str "")) ∧
    (setLaunchParam exampleCollaborators emptyRegistry
        { tag := "empty_flag", type := "bool", val := "" }).map (fun reg => reg "empty_flag") ≠
      some (some (.bool false)) := by
  decide

/-! ## Bare tokens (C13) -/

/-- When the second loop runs through, a key that no remaining token assigns keeps
its value. -/
theorem tokenLoop_keeps (tag : String) :
    ∀ (args : List String) (n : Nat) (idx : Int) (reg reg' : Registry),
      tokenLoop n args idx reg = (true, reg') →
      (∀ b, b ∈ args → (getTagVal b).ret = true → (getTagVal b).tag ≠ tag) →
      reg' tag = reg tag := by
  intro args
  induction args with
  | nil =>
    intro n idx reg reg' h _
    simp [tokenLoop] at h
    rw [h]
  | cons b rest ih =>
    intro n idx reg reg' h hno
    unfold tokenLoop at h
    by_cases hb : (getTagVal b).ret = true
    · simp only [hb, if_true] at h
      have := ih (n + 1) idx _ reg' h (fun x hx => hno x (List.mem_cons_of_mem _ hx))
      rw [this]
      exact rosSetParam_other _ _ _ _ (fun hh => hno b (List.mem_cons_self _ _) hb hh.symm)
    · simp only [hb] at h
      by_cases hidx : idx ≠ (n : Int)
      · simp [hidx] at h
      · simp only [hidx, if_false] at h
        exact ih (n + 1) idx reg reg' h (fun x hx => hno x (List.mem_cons_of_mem _ hx))

/-- When the second loop runs through, the key of a token that no later token
assigns holds the value of that token, as a string. -/
theorem tokenLoop_last (a : String) (post : List String)
    (htok : (getTagVal a).ret = true)
    (hlast : ∀ b, b ∈ post → (getTagVal b).ret = true →
      (getTagVal b).tag ≠ (getTagVal a).tag) :
    ∀ (pre : List String) (n : Nat) (idx : Int) (reg reg' : Registry),
      tokenLoop n (pre ++ a :: post) idx reg = (true, reg') →
      reg' (getTagVal a).tag = some (.str (getTagVal a).val) := by
  intro pre
  induction pre with
  | nil =>
    intro n idx reg reg' h
    simp only [List.nil_append] at h
    unfold tokenLoop at h
    simp only [htok, if_true] at h
    rw [tokenLoop_keeps _ post (n + 1) idx _ reg' h hlast]
    exact rosSetParam_same _ _ _
  | cons b rest ih =>
    intro n idx reg reg' h
    simp only [List.cons_append] at h
    unfold tokenLoop at h
    by_cases hb : (getTagVal b).ret = true
    · simp only [hb, if_true] at h
      exact ih (n + 1) idx _ reg' h
    · simp only [hb] at h
      by_cases hidx : idx ≠ (n : Int)
      · simp [hidx] at h
      · simp only [hidx, if_false] at h
        exact ih (n + 1) idx reg reg' h

/-- In a list with an element that has a decidable property there is a last such
element. -/
theorem exists_last_with (P : String → Prop) [DecidablePred P] :
    ∀ (l : List String), (∃ a, a ∈ l ∧ P a) →
      ∃ pre a post, l = pre ++ a :: post ∧ P a ∧ ∀ b, b ∈ post → ¬ P b := by
  intro l
  induction l with
  | nil =>
    rintro ⟨a, ha, _⟩
    simp at ha
  | cons x xs ih =>
    rintro ⟨a, ha, hPa⟩
    by_cases hx : ∃ b, b ∈ xs ∧ P b
    · obtain ⟨pre, a', post, hsplit, hP, hno⟩ := ih hx
      exact ⟨x :: pre, a', post, by rw [hsplit]; rfl, hP, hno⟩
    · have hxa : a = x := by
        rcases List.mem_cons.1 ha with h | h
        · exact h
        · exact absurd ⟨a, h, hPa⟩ hx
      subst hxa
      exact ⟨[], a, xs, rfl, hPa, fun b hb hPb => hx ⟨b, hb, hPb⟩⟩

/-- C13: whenever `parseLaunchfileSetParameter` returns true, for every bare token
`tag:=value` among `argv[1..argc-1]` the registry it leaves holds for `tag` the
value, as a string, of the last such token for that tag, whatever the launch files
assigned and whatever the registry held before. -/
theorem bare_tokens_override (c : Collaborators) (reg : Registry) (argv : List String)
    (a : String)
    (hok : (parseLaunchfileSetParameter c reg argv).ok? = some true)
    (ha : a ∈ argv.drop 1) (htok : (getTagVal a).ret = true) :
    ∃ reg', (parseLaunchfileSetParameter c reg argv).reg? = some reg' ∧
      ∃ pre a' post, argv.drop 1 = pre ++ a' :: post ∧
        (getTagVal a').ret = true ∧ (getTagVal a').tag = (getTagVal a).tag ∧
        (∀ b, b ∈ post → (getTagVal b).ret = true → (getTagVal b).tag ≠ (getTagVal a).tag) ∧
        reg' (getTagVal a).tag = some (.str (getTagVal a').val) := by
  unfold parseLaunchfileSetParameter at hok ⊢
  cases hl : launchLoop c 1 (argv.drop 1) (-1) reg with
  | exited code =>
    rw [hl] at hok
    simp [ParseOutcome.ok?] at hok
  | threw =>
    rw [hl] at hok
    simp [ParseOutcome.ok?] at hok
  | done idx reg1 =>
    rw [hl] at hok
    simp only [ParseOutcome.ok?, Option.some.injEq] at hok
    simp only [ParseOutcome.reg?]
    refine ⟨_, rfl, ?_⟩
    obtain ⟨pre, a', post, hsplit, ⟨hret, htag⟩, hno⟩ :=
      exists_last_with (fun b => (getTagVal b).ret = true ∧ (getTagVal b).tag = (getTagVal a).tag)
        (argv.drop 1) ⟨a, ha, htok, rfl⟩
    have hlast : ∀ b, b ∈ post → (getTagVal b).ret = true →
        (getTagVal b).tag ≠ (getTagVal a).tag :=
      fun b hb hr ht => hno b hb ⟨hr, ht⟩
    refine ⟨pre, a', post, hsplit, hret, htag, hlast, ?_⟩
    have hrun : tokenLoop 1 (pre ++ a' :: post) idx reg1 =
        (true, (tokenLoop 1 (argv.drop 1) idx reg1).2) := by
      rw [← hsplit]
      exact Prod.ext hok rfl
    have := tokenLoop_last a' post hret (by rw [htag]; exact hlast) pre 1 idx reg1 _ hrun
    rw [htag] at this
    exact this

/-- C13 at a concrete argument list: a launch file and two tokens for `port`; the
registry holds the value of the second. -/
theorem bare_tokens_override_witness :
    ∃ reg', (parseLaunchfileSetParameter exampleCollaborators emptyRegistry
        ["sick_generic_caller", "scan.launch", "port:=2111", "port:=2112"]).reg? = some reg' ∧
      ∃ pre a' post,
        List.drop 1 ["sick_generic_caller", "scan.launch", "port:=2111", "port:=2112"] =
          pre ++ a' :: post ∧
        (getTagVal a').ret = true ∧ (getTagVal a').tag = (getTagVal "port:=2111").tag ∧
        (∀ b, b ∈ post → (getTagVal b).ret = true →
          (getTagVal b).tag ≠ (getTagVal "port:=2111").tag) ∧
        reg' (getTagVal "port:=2111").tag = some (.str (getTagVal a').val) :=
  bare_tokens_override exampleCollaborators emptyRegistry
    ["sick_generic_caller", "scan.launch", "port:=2111", "port:=2112"] "port:=2111"
    (by decide) (by decide) (by decide)

/-! ## Validation of the arguments (C11) -/

theorem getTagVal_ret_iff (s : String) :
    (getTagVal s).ret = true ↔ ContainsAssign s.data := by
  have hspec := find_assign_spec s.data
  cases hf : find [':', '='] s.data with
  | none =>
    rw [hf] at hspec
    rw [getTagVal_of_find_none s hf]
    simp only [Bool.false_eq_true, false_iff]
    exact hspec
  | some pos =>
    rw [hf] at hspec
    rw [getTagVal_of_find_some s pos hf]
    simp only [true_iff]
    exact ⟨s.data.take pos, s.data.drop (pos + 2), hspec.2.1⟩

/-- The assignments of a launch file are all written when no conversion throws. -/
theorem applyAssignments_some (c : Collaborators) :
    ∀ (l : List LaunchAssignment) (reg : Registry),
      (∀ x, x ∈ l → ∀ r, (setLaunchParam c r x).isSome = true) →
      ∃ reg', applyAssignments c reg l = some reg' := by
  intro l
  induction l with
  | nil => intro reg _; exact ⟨reg, rfl⟩
  | cons x xs ih =>
    intro reg h
    obtain ⟨r1, hr1⟩ := Option.isSome_iff_exists.1 (h x (List.mem_cons_self _ _) reg)
    obtain ⟨r2, hr2⟩ := ih r1 (fun y hy => h y (List.mem_cons_of_mem _ hy))
    exact ⟨r2, by simp [applyAssignments, hr1, hr2]⟩

/-- When every launch file parses and converts, the first loop runs through, and
`launchArgcFileIdx` is the index of the last argument ending in `.launch`, or is
unchanged when there is none. -/
theorem launchLoop_done (c : Collaborators) :
    ∀ (args : List String) (n : Nat) (idx : Int) (reg : Registry),
      (∀ a, a ∈ args → ends_with a ".launch" = true →
        ∃ l, c.parseFile a = some l ∧
          ∀ x, x ∈ l → ∀ r, (setLaunchParam c r x).isSome = true) →
      ∃ (idx' : Int) (reg' : Registry), launchLoop c n args idx reg = .done idx' reg' ∧
        ((idx' = idx ∧ ∀ (i : Nat) (a : String), args[i]? = some a →
            ends_with a ".launch" = false) ∨
         (∃ (i : Nat) (a : String), args[i]? = some a ∧ ends_with a ".launch" = true ∧
            idx' = ((n + i : Nat) : Int) ∧
            ∀ (j : Nat) (b : String), i < j → args[j]? = some b →
              ends_with b ".launch" = false)) := by
  intro args
  induction args with
  | nil =>
    intro n idx reg _
    exact ⟨idx, reg, rfl, Or.inl ⟨rfl, by simp⟩⟩
  | cons x xs ih =>
    intro n idx reg h
    have hxs : ∀ a, a ∈ xs → ends_with a ".launch" = true →
        ∃ l, c.parseFile a = some l ∧
          ∀ y, y ∈ l → ∀ r, (setLaunchParam c r y).isSome = true :=
      fun a ha => h a (List.mem_cons_of_mem _ ha)
    by_cases hx : ends_with x ".launch" = true
    · obtain ⟨l, hl, hconv⟩ := h x (List.mem_cons_self _ _) hx
      obtain ⟨reg1, hreg1⟩ := applyAssignments_some c l reg hconv
      obtain ⟨idx', reg', hrun, hchar⟩ := ih (n + 1) (n : Int) reg1 hxs
      refine ⟨idx', reg', by simp [launchLoop, hx, hl, hreg1, hrun], Or.inr ?_⟩
      rcases hchar with ⟨hidx, hnone⟩ | ⟨i, a, hia, hla, hidx, hlater⟩
      · refine ⟨0, x, by simp, hx, by simpa using hidx, ?_⟩
        intro j b hj hjb
        cases j with
        | zero => omega
        | succ j' =>
          simp only [List.getElem?_cons_succ] at hjb
          exact hnone j' b hjb
      · refine ⟨i + 1, a, by simpa using hia, hla, ?_, ?_⟩
        · rw [hidx]
          congr 1
          omega
        · intro j b hj hjb
          cases j with
          | zero => omega
          | succ j' =>
            simp only [List.getElem?_cons_succ] at hjb
            exact hlater j' b (by omega) hjb
    · have hxf : ends_with x ".launch" = false := by simpa using hx
      obtain ⟨idx', reg', hrun, hchar⟩ := ih (n + 1) idx reg hxs
      refine ⟨idx', reg', by simp [launchLoop, hxf, hrun], ?_⟩
      rcases hchar with ⟨hidx, hnone⟩ | ⟨i, a, hia, hla, hidx, hlater⟩
      · refine Or.inl ⟨hidx, ?_⟩
        intro i a hia
        cases i with
        | zero =>
          simp only [List.getElem?_cons_zero, Option.some.injEq] at hia
          rw [← hia]
          exact hxf
        | succ i' =>
          simp only [List.getElem?_cons_succ] at hia
          exact hnone i' a hia
      · refine Or.inr ⟨i + 1, a, by simpa using hia, hla, ?_, ?_⟩
        · rw [hidx]
          congr 1
          omega
        · intro j b hj hjb
          cases j with
          | zero => omega
          | succ j' =>
            simp only [List.getElem?_cons_succ] at hjb
            exact hlater j' b (by omega) hjb

/-- The second loop returns true exactly when every argument is a `tag:=value`
token or stands at the index `launchArgcFileIdx`. -/
theorem tokenLoop_ok :
    ∀ (args : List String) (n : Nat) (idx : Int) (reg : Registry),
      (tokenLoop n args idx reg).1 = true ↔
        ∀ i a, args[i]? = some a →
          (getTagVal a).ret = true ∨ idx = ((n + i : Nat) : Int) := by
  intro args
  induction args with
  | nil =>
    intro n idx reg
    simp [tokenLoop]
  | cons x xs ih =>
    intro n idx reg
    unfold tokenLoop
    by_cases hx : (getTagVal x).ret = true
    · simp only [hx, if_true]
      rw [ih]
      constructor
      · intro h i a hia
        cases i with
        | zero =>
          simp only [List.getElem?_cons_zero, Option.some.injEq] at hia
          rw [← hia]
          exact Or.inl hx
        | succ i' =>
          simp only [List.getElem?_cons_succ] at hia
          rcases h i' a hia with h1 | h1
          · exact Or.inl h1
          · exact Or.inr (by rw [h1]; congr 1; omega)
      · intro h i a hia
        rcases h (i + 1) a (by simpa using hia) with h1 | h1
        · exact Or.inl h1
        · exact Or.inr (by rw [h1]; congr 1; omega)
    · have hxf : (getTagVal x).ret = false := by simpa using hx
      simp only [hxf, Bool.false_eq_true, if_false]
      by_cases hidx : idx ≠ (n : Int)
      · simp only [hidx, ne_eq, not_false_eq_true, if_true, Bool.false_eq_true, false_iff]
        intro h
        rcases h 0 x (by simp) with h1 | h1
        · exact hx h1
        · exact hidx (by simpa using h1)
      · have hidx' : idx = (n : Int) := by
          by_contra hh
          exact hidx hh
        simp only [hidx, if_false]
        rw [ih]
        constructor
        · intro h i a hia
          cases i with
          | zero => exact Or.inr (by simpa using hidx')
          | succ i' =>
            simp only [List.getElem?_cons_succ] at hia
            rcases h i' a hia with h1 | h1
            · exact Or.inl h1
            · exact Or.inr (by rw [h1]; congr 1; omega)
        · intro h i a hia
          rcases h (i + 1) a (by simpa using hia) with h1 | h1
          · exact Or.inl h1
          · exact Or.inr (by rw [h1]; congr 1; omega)

/-- C11 (amended): assuming every launch file named among `argv[1..argc-1]` parses
and none of its conversions throws, `parseLaunchfileSetParameter` returns, and it
returns true if and only if every argument `argv[1..argc-1]` is either a
`tag:=value` token (contains `:=`) or the last launch-file path (ends with
`.launch`) of the argument list. With at most one launch-file path on the argument
list: if and only if every argument is a launch-file path or a `tag:=value`
token. -/
theorem argument_validation (c : Collaborators) (reg : Registry) (argv : List String)
    (hfiles : ∀ a, a ∈ argv.drop 1 → ends_with a ".launch" = true →
      ∃ l, c.parseFile a = some l ∧
        ∀ x, x ∈ l → ∀ r, (setLaunchParam c r x).isSome = true) :
    ∃ (ok : Bool) (reg' : Registry),
      parseLaunchfileSetParameter c reg argv = .returned ok reg' ∧
      (ok = true ↔ ∀ (i : Nat) (a : String), (argv.drop 1)[i]? = some a →
        ContainsAssign a.data ∨
          (ends_with a ".launch" = true ∧
            ∀ (j : Nat) (b : String), i < j → (argv.drop 1)[j]? = some b →
              ends_with b ".launch" = false)) ∧
      ((∀ (i j : Nat) (a b : String), (argv.drop 1)[i]? = some a →
          (argv.drop 1)[j]? = some b → ends_with a ".launch" = true →
          ends_with b ".launch" = true → i = j) →
        (ok = true ↔ ∀ a, a ∈ argv.drop 1 →
          ends_with a ".launch" = true ∨ ContainsAssign a.data)) := by
  obtain ⟨idx, reg1, hrun, hchar⟩ := launchLoop_done c (argv.drop 1) 1 (-1) reg hfiles
  have hmain : (tokenLoop 1 (argv.drop 1) idx reg1).1 = true ↔
      ∀ (i : Nat) (a : String), (argv.drop 1)[i]? = some a →
        ContainsAssign a.data ∨
          (ends_with a ".launch" = true ∧
            ∀ (j : Nat) (b : String), i < j → (argv.drop 1)[j]? = some b →
              ends_with b ".launch" = false) := by
    rw [tokenLoop_ok]
    constructor
    · intro h i a hia
      rcases h i a hia with h1 | h1
      · exact Or.inl ((getTagVal_ret_iff a).1 h1)
      · right
        rcases hchar with ⟨hidx, _⟩ | ⟨i0, a0, hia0, hla0, hidx, hlater⟩
        · rw [hidx] at h1
          omega
        · have hi : i = i0 := by
            rw [hidx] at h1
            omega
          subst hi
          rw [hia] at hia0
          have : a = a0 := by simpa using hia0
          subst this
          exact ⟨hla0, hlater⟩
    · intro h i a hia
      rcases h i a hia with h1 | ⟨hla, hnolater⟩
      · exact Or.inl ((getTagVal_ret_iff a).2 h1)
      · right
        rcases hchar with ⟨_, hnone⟩ | ⟨i0, a0, hia0, hla0, hidx, hlater⟩
        · rw [hnone i a hia] at hla
          exact Bool.noConfusion hla
        · have hi : i = i0 := by
            rcases Nat.lt_trichotomy i i0 with hlt | heq | hgt
            · rw [hnolater i0 a0 hlt hia0] at hla0
              exact Bool.noConfusion hla0
            · exact heq
            · rw [hlater i a hgt hia] at hla
              exact Bool.noConfusion hla
          rw [hidx, hi]
  refine ⟨(tokenLoop 1 (argv.drop 1) idx reg1).1, (tokenLoop 1 (argv.drop 1) idx reg1).2,
    by unfold parseLaunchfileSetParameter; rw [hrun], hmain, ?_⟩
  intro huniq
  rw [hmain]
  constructor
  · intro h a ha
    obtain ⟨i, hia⟩ := List.mem_iff_getElem?.1 ha
    rcases h i a hia with h1 | ⟨h1, _⟩
    · exact Or.inr h1
    · exact Or.inl h1
  · intro h i a hia
    rcases h a (List.mem_iff_getElem?.2 ⟨i, hia⟩) with h1 | h1
    · right
      refine ⟨h1, ?_⟩
      intro j b hj hjb
      cases hb : ends_with b ".launch" with
      | false => rfl
      | true =>
        have := huniq i j a b hia hjb h1 hb
        omega
    · exact Or.inl h1

/-- C11 (amended) at a concrete argument list: one launch file, one token and one
argument that is neither; the function returns false. -/
theorem argument_validation_witness :
    ∃ (ok : Bool) (reg' : Registry),
      parseLaunchfileSetParameter exampleCollaborators emptyRegistry
          ["sick_generic_caller", "scan.launch", "port:=2112", "verbose"] =
        .returned ok reg' ∧
      (ok = true ↔ ∀ (i : Nat) (a : String),
        (List.drop 1 ["sick_generic_caller", "scan.launch", "port:=2112", "verbose"])[i]? =
            some a →
          ContainsAssign a.data ∨
            (ends_with a ".launch" = true ∧
              ∀ (j : Nat) (b : String), i < j →
                (List.drop 1 ["sick_generic_caller", "scan.launch", "port:=2112",
                  "verbose"])[j]? = some b →
                ends_with b ".launch" = false)) ∧
      ((∀ (i j : Nat) (a b : String),
          (List.drop 1 ["sick_generic_caller", "scan.launch", "port:=2112", "verbose"])[i]? =
            some a →
          (List.drop 1 ["sick_generic_caller", "scan.launch", "port:=2112", "verbose"])[j]? =
            some b →
          ends_with a ".launch" = true → ends_with b ".launch" = true → i = j) →
        (ok = true ↔ ∀ a,
          a ∈ List.drop 1 ["sick_generic_caller", "scan.launch", "port:=2112", "verbose"] →
          ends_with a ".launch" = true ∨ ContainsAssign a.data)) :=
  argument_validation exampleCollaborators emptyRegistry
    ["sick_generic_caller", "scan.launch", "port:=2112", "verbose"]
    (by
      intro a ha _
      have hne : a ≠ "typed.launch" := by
        intro h
        subst h
        revert ha
        decide
      exact ⟨[], by simp [exampleCollaborators, hne], by simp⟩)

/-- C11 (counterexample): two launch files that both parse (to no assignment):
every argument ends with `.launch`, and `parseLaunchfileSetParameter` returns
false, because only the index of the last launch file is kept. And with a single
launch file that parses, an integer value that `std::stoi` rejects makes the
function throw instead of returning. -/
theorem two_launch_files_rejected :
    exampleCollaborators.parseFile "a.launch" = some [] ∧
    exampleCollaborators.parseFile "b.launch" = some [] ∧
    ends_with "a.launch" ".launch" = true ∧ ends_with "b.launch" ".launch" = true ∧
    (parseLaunchfileSetParameter exampleCollaborators emptyRegistry
      ["sick_generic_caller", "a.launch", "b.launch"]).ok? = some false ∧
    (exampleCollaborators.parseFile "typed.launch").isSome = true ∧
    (parseLaunchfileSetParameter exampleCollaborators emptyRegistry
      ["sick_generic_caller", "typed.launch"]).ok? = none := by
  decide

/-! ## Ownership under the three exit codes (C10, C19) -/

end SickGenericLaser
